import Mathlib

/-!
# Verification of the craig momentum-bot core

A shallow embedding, over `ℚ`, of the core of the `craig_bot` package
(`strategy.py`, `risk.py`, `journal.py`, `bot.py`) together with proofs
of the specification claims about it.

Modelling conventions:
* Python floats are modelled as exact rationals (`ℚ`); the claims under
  study are about the algebraic structure of the computations, not about
  floating-point rounding.
* The `math.nan` sentinel used by the indicator library for "undefined"
  entries is modelled as `Option ℚ` with `none` standing for NaN; the
  source's `math.isfinite`/`math.isnan` tests become `Option` matches.
* Python exceptions (`ValueError`, `IndexError`) are modelled with
  `Except`/`Option` results.
* Python `int` parameters that the source may compare against lengths or
  use as window sizes are modelled as `ℤ` where the sign matters to the
  source's control flow (`window <= 0` guards), and as `ℕ` where the
  source only ever uses non-negative counts.
-/

namespace Craig

/-- Python's builtin `max` over a non-empty list (`max(slice)`); the `[]`
case is unreachable at every call site (slices are non-empty there). -/
def listMax : List ℚ → ℚ
  | [] => 0
  | x :: xs => xs.foldl max x

/-- Python's builtin `min` over a non-empty list (`min(slice)`). -/
def listMin : List ℚ → ℚ
  | [] => 0
  | x :: xs => xs.foldl min x

/-- The running sums computed by the `window_sum` loop of `_rolling_mean`
(strategy.py lines 57-61): the scan starts from `sum(values[:window])` and
each step adds `values[idx] - values[idx - window]`; the zip pairs
`values[idx]` with `values[idx - window]` exactly as the loop reads them. -/
def runningSums (values : List ℚ) (w : ℕ) : List ℚ :=
  ((values.drop w).zip values).scanl (fun s p => s + p.1 - p.2) (values.take w).sum

/-- `_rolling_mean` (strategy.py lines 51-62): NaN for the first
`window - 1` indices, then the running-sum mean; all NaN when the series
is shorter than the window or the window is non-positive. -/
def rollingMean (values : List ℚ) (window : ℤ) : List (Option ℚ) :=
  if (values.length : ℤ) < window ∨ window ≤ 0 then
    List.replicate values.length none
  else
    List.replicate (window.toNat - 1) none
      ++ (runningSums values window.toNat).map (fun s => some (s / (window : ℚ)))

/-- `_rolling_max` (strategy.py lines 65-74): for each index
`idx ≥ window - 1` the maximum of the slice
`values[idx - window + 1 : idx + 1]`. -/
def rollingMax (values : List ℚ) (window : ℤ) : List (Option ℚ) :=
  if (values.length : ℤ) < window ∨ window ≤ 0 then
    List.replicate values.length none
  else
    List.replicate (window.toNat - 1) none
      ++ (List.range (values.length - (window.toNat - 1))).map
          (fun k => some (listMax ((values.drop k).take window.toNat)))

/-- `_rolling_min` (strategy.py lines 77-86). -/
def rollingMin (values : List ℚ) (window : ℤ) : List (Option ℚ) :=
  if (values.length : ℤ) < window ∨ window ≤ 0 then
    List.replicate values.length none
  else
    List.replicate (window.toNat - 1) none
      ++ (List.range (values.length - (window.toNat - 1))).map
          (fun k => some (listMin ((values.drop k).take window.toNat)))

/-- The defined tail of `_ema` (strategy.py lines 95-99): the scan starts
from the seed `sum(values[:span]) / span` and each step computes
`alpha * values[idx] + (1 - alpha) * result[idx - 1]` with
`alpha = 2 / (span + 1)`. -/
def emaAux (values : List ℚ) (span : ℤ) : List ℚ :=
  (values.drop span.toNat).scanl
    (fun prev v => (2 / ((span : ℚ) + 1)) * v + (1 - 2 / ((span : ℚ) + 1)) * prev)
    ((values.take span.toNat).sum / (span : ℚ))

/-- `_ema` (strategy.py lines 89-100): seeded at index `span - 1` with the
simple mean of the first `span` values, then
`ema[i] = alpha * values[i] + (1 - alpha) * ema[i-1]`. -/
def ema (values : List ℚ) (span : ℤ) : List (Option ℚ) :=
  if (values.length : ℤ) < span ∨ span ≤ 0 then
    List.replicate values.length none
  else
    List.replicate (span.toNat - 1) none ++ (emaAux values span).map some

/-- The `true_range` array built by `_atr` (strategy.py lines 105-111):
`high[0] - low[0]` at index 0 and
`max(high[i] - low[i], |high[i] - close[i-1]|, |low[i] - close[i-1]|)`
afterwards.  The zip pairs `(high[i], low[i])` with `close[i-1]` exactly as
the loop reads them; the `[]` branch corresponds to the empty-series case
in which the source raises before producing any list. -/
def trueRange (high low close : List ℚ) : List ℚ :=
  match high, low with
  | h0 :: _, l0 :: _ =>
    (h0 - l0) ::
      (((high.drop 1).zip (low.drop 1)).zip close).map
        (fun p => max (p.1.1 - p.1.2) (max |p.1.1 - p.2| |p.1.2 - p.2|))
  | _, _ => []

/-- `_atr` (strategy.py lines 103-112), modelled for the equal-length
inputs it is called with: writing `true_range[0]` raises `IndexError`
exactly when the series is empty, hence the `Option`; otherwise the ATR is
the rolling mean of the true range. -/
def atr (high low close : List ℚ) (window : ℤ) : Option (List (Option ℚ)) :=
  if close.isEmpty then none
  else some (rollingMean (trueRange high low close) window)

/-- The `PriceSeries` mapping restricted to its four required keys
(`close`, `high`, `low`, `volume`); claims about missing keys are not in
scope, so the mapping is modelled as a record of the four series. -/
structure PriceData where
  close : List ℚ
  high : List ℚ
  low : List ℚ
  volume : List ℚ
deriving DecidableEq, Inhabited

/-- `_validate_inputs` (strategy.py lines 40-48) on a `PriceData` record:
with the four required series present, the only failure left is the
equal-length check (`len(lengths) != 1`). -/
def validateInputs (p : PriceData) : Bool :=
  p.high.length == p.close.length && p.low.length == p.close.length
    && p.volume.length == p.close.length

/-- The two exception classes that `calculate_indicators` can raise:
`ValueError` from `_validate_inputs` and `IndexError` from `_atr` on an
empty series. -/
inductive CalcError where
  | validationError : CalcError
  | indexError : CalcError
deriving DecidableEq, Inhabited

/-- The dictionary returned by `calculate_indicators`
(strategy.py lines 150-164). -/
structure IndicatorSet where
  close : List ℚ
  sma_50 : List (Option ℚ)
  sma_150 : List (Option ℚ)
  sma_200 : List (Option ℚ)
  ema_21 : List (Option ℚ)
  avg_volume_50 : List (Option ℚ)
  avg_volume_10 : List (Option ℚ)
  high_52 : List (Option ℚ)
  low_52 : List (Option ℚ)
  atr_14 : List (Option ℚ)
  pct_off_high : List (Option ℚ)
  pct_from_low : List (Option ℚ)
  volume_dry_up : List (Option ℚ)
deriving DecidableEq, Inhabited

/-- The indicator dictionary built by `calculate_indicators`
(strategy.py lines 124-164) once validation has passed and `_atr` has not
raised; `atr14` is the list `_atr` produced.  The derived-ratio loop
(lines 137-148) is rendered as zips over the equal-length series: an entry
of `pct_off_high`/`pct_from_low` is defined precisely when the 252-period
extreme is defined (finite) and non-zero, an entry of `volume_dry_up`
precisely when both volume averages are defined and the 50-period one is
positive. -/
def buildIndicators (p : PriceData) (atr14 : List (Option ℚ)) : IndicatorSet :=
  let high52 := rollingMax p.high 252
  let low52 := rollingMin p.low 252
  let avg50 := rollingMean p.volume 50
  let avg10 := rollingMean p.volume 10
  { close := p.close
    sma_50 := rollingMean p.close 50
    sma_150 := rollingMean p.close 150
    sma_200 := rollingMean p.close 200
    ema_21 := ema p.close 21
    avg_volume_50 := avg50
    avg_volume_10 := avg10
    high_52 := high52
    low_52 := low52
    atr_14 := atr14
    pct_off_high := (p.close.zip high52).map (fun q =>
      match q.2 with
      | some hv => if hv = 0 then none else some ((hv - q.1) / hv)
      | none => none)
    pct_from_low := (p.close.zip low52).map (fun q =>
      match q.2 with
      | some lv => if lv = 0 then none else some ((q.1 - lv) / lv)
      | none => none)
    volume_dry_up := (avg10.zip avg50).map (fun q =>
      match q.1, q.2 with
      | some a10, some a50 => if 0 < a50 then some (a10 / a50) else none
      | _, _ => none) }

/-- `calculate_indicators` (strategy.py lines 115-164): validation first
(`ValueError`), then the indicator computations, among which `_atr` raises
`IndexError` on an empty series. -/
def calculateIndicators (p : PriceData) : Except CalcError IndicatorSet :=
  if validateInputs p = false then .error .validationError
  else
    match atr p.high p.low p.close 14 with
    | none => .error .indexError
    | some atr14 => .ok (buildIndicators p atr14)

/-- `StrategyConfig` (strategy.py lines 12-21) with the source's default
values. -/
structure StrategyConfig where
  rs_threshold : ℚ := 70
  max_pct_off_high : ℚ := 1 / 4
  min_pct_from_low : ℚ := 3 / 10
  min_volume_dry_up_ratio : ℚ := 1 / 2
  trend_lookback : ℕ := 10
  min_base_length : ℤ := 35
deriving DecidableEq, Inhabited

/-- `StrategyEvaluation` (strategy.py lines 24-33).  Of the `metrics`
dictionary only the entries the claims mention are modelled:
`metrics_atr_14` is the `"atr_14"` entry (`none` when the key is absent,
as in the early-exit branch, or holds NaN) and `metrics_relative_strength`
the `"relative_strength"` entry.  `stop_price` is `none` when the source
would return NaN (`close - 2.0 * nan`). -/
structure StrategyEvaluation where
  qualifies : Bool
  score : ℚ
  reasons : List String
  metrics_atr_14 : Option ℚ
  metrics_relative_strength : ℚ
  entry_price : ℚ
  stop_price : Option ℚ
deriving DecidableEq, Inhabited

/-- The latest (`[-1]`) entry of an indicator column, `none` when the
column is empty or the entry is NaN. -/
def lastO (l : List (Option ℚ)) : Option ℚ := l.getLast?.getD none

/-- The latest (`[-1]`) entry of a plain series (only used on non-empty
series). -/
def lastD (l : List ℚ) : ℚ := l.getLast?.getD 0

/-- Check 2 (strategy.py lines 208-209): moving averages stacked in
bullish order. -/
def reasonStack (m50 m150 m200 : ℚ) : List String :=
  if ¬ (m50 > m150 ∧ m150 > m200) then ["Moving averages are not stacked in bullish order"]
  else []

/-- Check 3 (strategy.py lines 211-218): 200-period trend rising over
`trend_lookback` periods; `earlier` is `sma_200[-1 - trend_lookback]` and
`m200` the (already non-NaN) latest value. -/
def reasonTrend (cfg : StrategyConfig) (sma200 : List (Option ℚ)) (m200 : ℚ) : List String :=
  if sma200.length > cfg.trend_lookback then
    match sma200.getD (sma200.length - 1 - cfg.trend_lookback) none with
    | none => ["200-day trend is not rising"]
    | some earlier => if m200 ≤ earlier then ["200-day trend is not rising"] else []
  else ["Not enough data to assess 200-day trend"]

/-- Check 4 (strategy.py lines 220-222): latest close above the 50- and
150-period moving averages. -/
def reasonAboveMAs (close_price m50 m150 : ℚ) : List String :=
  if close_price ≤ m50 ∨ close_price ≤ m150 then ["Price is not above key moving averages"]
  else []

/-- Check 5 (strategy.py lines 224-226): percent off the 52-week high
defined and at most `max_pct_off_high`. -/
def reasonOffHigh (cfg : StrategyConfig) (pct_off_high : Option ℚ) : List String :=
  match pct_off_high with
  | none => ["Price is extended too far below 52-week high"]
  | some v => if v > cfg.max_pct_off_high then ["Price is extended too far below 52-week high"] else []

/-- Check 6 (strategy.py lines 228-230): percent from the 52-week low
defined and at least `min_pct_from_low`. -/
def reasonFromLow (cfg : StrategyConfig) (pct_from_low : Option ℚ) : List String :=
  match pct_from_low with
  | none => ["Price is not sufficiently off the 52-week low"]
  | some v => if v < cfg.min_pct_from_low then ["Price is not sufficiently off the 52-week low"] else []

/-- Check 7 (strategy.py lines 232-233): supplied relative strength at
least `rs_threshold`. -/
def reasonRs (cfg : StrategyConfig) (relative_strength : ℚ) : List String :=
  if relative_strength < cfg.rs_threshold then ["Relative strength is below threshold"] else []

/-- Check 8 (strategy.py lines 235-237): volume dry-up ratio defined and
at least `min_volume_dry_up_ratio`. -/
def reasonVolume (cfg : StrategyConfig) (volume_dry_up : Option ℚ) : List String :=
  match volume_dry_up with
  | none => ["Volume has not dried up during base"]
  | some v => if v < cfg.min_volume_dry_up_ratio then ["Volume has not dried up during base"] else []

/-- Check 9 (strategy.py lines 239-240): supplied base length at least
`min_base_length`. -/
def reasonBase (cfg : StrategyConfig) (base_length : ℤ) : List String :=
  if base_length < cfg.min_base_length then ["Base duration is too short"] else []

/-- Check 10 (strategy.py lines 242-244): latest 14-period ATR defined
and positive. -/
def reasonAtr (atr_latest : Option ℚ) : List String :=
  match atr_latest with
  | none => ["ATR is not available"]
  | some a => if a ≤ 0 then ["ATR is not available"] else []

/-- The full reasons list accumulated by the successive `fail` calls of
`MinerviniMomentumStrategy.evaluate` (strategy.py lines 208-244): the
checks run in program order and each appends its message, so the list is
the concatenation of the per-check lists. -/
def allReasons (cfg : StrategyConfig) (ind : IndicatorSet)
    (relative_strength : ℚ) (base_length : ℤ) (m50 m150 m200 : ℚ) : List String :=
  reasonStack m50 m150 m200
    ++ reasonTrend cfg ind.sma_200 m200
    ++ reasonAboveMAs (lastD ind.close) m50 m150
    ++ reasonOffHigh cfg (lastO ind.pct_off_high)
    ++ reasonFromLow cfg (lastO ind.pct_from_low)
    ++ reasonRs cfg relative_strength
    ++ reasonVolume cfg (lastO ind.volume_dry_up)
    ++ reasonBase cfg base_length
    ++ reasonAtr (lastO ind.atr_14)

/-- The score expression of strategy.py lines 246-252: the mean of the
four clamped components.  When a component is NaN in the source the
returned score is `0.0` anyway (the disqualified branch of line 268), so
the `getD 0` defaults are never observable. -/
def scoreOf (ind : IndicatorSet) (relative_strength : ℚ) : ℚ :=
  (min (relative_strength / 100) 1
    + min (1 - (lastO ind.pct_off_high).getD 0) 1
    + min ((lastO ind.pct_from_low).getD 0) 1
    + min ((lastO ind.volume_dry_up).getD 0 / (3 / 2)) 1) / 4

/-- `MinerviniMomentumStrategy.evaluate` (strategy.py lines 173-273) once
indicators are available: the moving-average-availability gate
(lines 191-206) early-exits with the single insufficient-data reason;
otherwise checks 2-10 all run, `qualifies` is true iff no reason
accumulated, the score is the component mean when qualifying and `0.0`
otherwise, `entry_price` is the latest close and `stop_price` is
`close - 2.0 * atr` (NaN, i.e. `none`, when the ATR is NaN). -/
def evaluateInd (cfg : StrategyConfig) (ind : IndicatorSet)
    (relative_strength : ℚ) (base_length : ℤ) : StrategyEvaluation :=
  match lastO ind.sma_50, lastO ind.sma_150, lastO ind.sma_200 with
  | some m50, some m150, some m200 =>
    let reasons := allReasons cfg ind relative_strength base_length m50 m150 m200
    { qualifies := reasons.isEmpty
      score := if reasons.isEmpty then scoreOf ind relative_strength else 0
      reasons := reasons
      metrics_atr_14 := lastO ind.atr_14
      metrics_relative_strength := relative_strength
      entry_price := lastD ind.close
      stop_price := (lastO ind.atr_14).map (fun a => lastD ind.close - 2 * a) }
  | _, _, _ =>
    { qualifies := false
      score := 0
      reasons := ["Not enough data to compute moving averages"]
      metrics_atr_14 := none
      metrics_relative_strength := relative_strength
      entry_price := lastD ind.close
      stop_price := some (lastD ind.close) }

/-- `MinerviniMomentumStrategy.evaluate` end to end: indicator
computation (which may raise) followed by the rule evaluation. -/
def evaluate (cfg : StrategyConfig) (p : PriceData)
    (relative_strength : ℚ) (base_length : ℤ) : Except CalcError StrategyEvaluation :=
  (calculateIndicators p).map (fun ind => evaluateInd cfg ind relative_strength base_length)

/-- `PositionSizerConfig` (risk.py lines 9-15) with the source's default
values. -/
structure PositionSizerConfig where
  account_equity : ℚ := 100000
  risk_fraction : ℚ := 1 / 100
  atr_multiplier : ℚ := 2
deriving DecidableEq, Inhabited

/-- The dictionary returned by `PositionSizer.size_position`: `exposure`
is `none` when the key is absent (the degenerate `per_share_risk ≤ 0`
branch of risk.py line 35). -/
structure PositionPlan where
  shares : ℤ
  stop_price : ℚ
  risk_capital : ℚ
  exposure : Option ℚ
deriving DecidableEq, Inhabited

/-- `PositionSizer.size_position` (risk.py lines 24-45); the two
`ValueError`s carry the source's messages. -/
def size_position (cfg : PositionSizerConfig) (entry_price atr : ℚ) :
    Except String PositionPlan :=
  if entry_price ≤ 0 then .error "Entry price must be positive"
  else if atr ≤ 0 then .error "ATR must be positive"
  else
    let risk_capital := cfg.account_equity * cfg.risk_fraction
    let stop_price := entry_price - cfg.atr_multiplier * atr
    let per_share_risk := entry_price - stop_price
    if per_share_risk ≤ 0 then
      .ok { shares := 0, stop_price := stop_price, risk_capital := risk_capital,
            exposure := none }
    else
      .ok { shares := ⌊risk_capital / per_share_risk⌋, stop_price := stop_price,
            risk_capital := risk_capital,
            exposure := some ((⌊risk_capital / per_share_risk⌋ : ℚ) * entry_price) }

/-- `TradeRecord` (journal.py lines 13-22). -/
structure TradeRecord where
  symbol : String
  entry_price : ℚ
  exit_price : ℚ
  shares : ℤ
  entry_date : String
  exit_date : String
deriving DecidableEq, Inhabited

/-- `TradeRecord.return_pct` (journal.py lines 30-36). -/
def TradeRecord.return_pct (r : TradeRecord) : ℚ :=
  if r.entry_price = 0 then 0 else (r.exit_price - r.entry_price) / r.entry_price

/-- `TradeJournal.adapt_config` (journal.py lines 84-112) as a pure
function of the journal's record list and `min_samples`:
`records[-min_samples:]` is the chronological tail (for positive
`min_samples` this is `drop (length - min_samples)`), and the three
thresholds are adjusted by the two mutually exclusive branches. -/
def adapt_config (min_samples : ℕ) (records : List TradeRecord)
    (config : StrategyConfig) : StrategyConfig :=
  let recent := records.drop (records.length - min_samples)
  if recent.length < min_samples then config
  else
    let returns := recent.map TradeRecord.return_pct
    let win_rate : ℚ := (returns.filter (fun v => 0 < v)).length / recent.length
    let avg_return : ℚ := returns.sum / returns.length
    if win_rate > 3 / 5 ∧ avg_return > 0 then
      { config with rs_threshold := min (config.rs_threshold + 5) 95,
                    max_pct_off_high := max (config.max_pct_off_high - 1 / 50) (3 / 20) }
    else if win_rate < 2 / 5 then
      { config with rs_threshold := max (config.rs_threshold - 5) 60,
                    min_pct_from_low := max (config.min_pct_from_low - 1 / 20) (1 / 10) }
    else config

/-- `CandidateResult` (bot.py lines 13-17). -/
structure CandidateResult where
  symbol : String
  evaluation : StrategyEvaluation
  position_plan : PositionPlan
deriving DecidableEq, Inhabited

/-- The exceptions that can escape `MomentumBot.rank_candidates` for a
universe in which every symbol has relative-strength and base-length
entries: an indicator exception from `evaluate`, a `KeyError` on the
`"atr_14"` metric (unreachable: qualifying evaluations always carry it),
or a `ValueError` from the position sizer. -/
inductive BotError where
  | calc : CalcError → BotError
  | missingMetric : BotError
  | sizer : String → BotError
deriving DecidableEq, Inhabited

/-- The accumulation loop of `MomentumBot.rank_candidates`
(bot.py lines 46-64), for a universe in which every symbol has
relative-strength and base-length entries (`rs` and `bl` total): evaluate
each symbol in encounter order, silently drop non-qualifying ones, size
the qualifying ones, and propagate any exception. -/
def rankLoop (cfg : StrategyConfig) (pcfg : PositionSizerConfig)
    (rs : String → ℚ) (bl : String → ℤ) :
    List (String × PriceData) → Except BotError (List CandidateResult)
  | [] => .ok []
  | (s, p) :: rest =>
    match evaluate cfg p (rs s) (bl s) with
    | .error e => .error (.calc e)
    | .ok ev =>
      if ev.qualifies then
        match ev.metrics_atr_14 with
        | none => .error .missingMetric
        | some a =>
          match size_position pcfg ev.entry_price a with
          | .error msg => .error (.sizer msg)
          | .ok plan =>
            (rankLoop cfg pcfg rs bl rest).map
              (fun tail => ⟨s, ev, plan⟩ :: tail)
      else rankLoop cfg pcfg rs bl rest

/-- `MomentumBot.rank_candidates` (bot.py lines 34-67) for a bot with no
journal attached: the accumulation loop followed by the stable
descending-by-score sort (`results.sort(key=score, reverse=True)`). -/
def rank_candidates (cfg : StrategyConfig) (pcfg : PositionSizerConfig)
    (symbols : List (String × PriceData)) (rs : String → ℚ) (bl : String → ℤ) :
    Except BotError (List CandidateResult) :=
  (rankLoop cfg pcfg rs bl symbols).map
    (fun results =>
      results.mergeSort (fun a b => decide (b.evaluation.score ≤ a.evaluation.score)))

/-!
## Specification-side definitions

The naive trailing-window statistics that §4.1 of the specification
describes ("index `i` holds the statistic over the trailing W values
ending at `i` (inclusive)"), written independently of the running-sum
implementation so that the two can be compared.
-/

/-- The trailing window of `w` values ending at index `i` inclusive. -/
def trailingSlice (values : List ℚ) (w i : ℕ) : List ℚ :=
  (values.drop (i + 1 - w)).take w

/-- The naive trailing arithmetic mean over the window ending at `i`. -/
def trailingMean (values : List ℚ) (w i : ℕ) : ℚ :=
  (trailingSlice values w i).sum / (w : ℚ)

/-!
## Helper lemmas about the list primitives
-/

theorem foldl_max_mem (x : ℚ) (xs : List ℚ) : xs.foldl max x ∈ x :: xs := by
  induction xs generalizing x with
  | nil => simp
  | cons a l ih =>
    have h := ih (max x a)
    rcases List.mem_cons.mp h with h1 | h1
    · rcases max_choice x a with h2 | h2 <;> rw [List.foldl_cons, h1, h2] <;> simp
    · simp only [List.foldl_cons, List.mem_cons]
      right; right; exact h1

theorem le_foldl_max (x : ℚ) (xs : List ℚ) : ∀ y ∈ x :: xs, y ≤ xs.foldl max x := by
  induction xs generalizing x with
  | nil => intro y hy; simp at hy; simp [hy]
  | cons a l ih =>
    intro y hy
    rcases List.mem_cons.mp hy with h1 | h1
    · calc y = x := h1
        _ ≤ max x a := le_max_left x a
        _ ≤ l.foldl max (max x a) := ih (max x a) (max x a) (List.mem_cons_self _ _)
    · rcases List.mem_cons.mp h1 with h2 | h2
      · calc y = a := h2
          _ ≤ max x a := le_max_right x a
          _ ≤ l.foldl max (max x a) := ih (max x a) (max x a) (List.mem_cons_self _ _)
      · exact ih (max x a) y (List.mem_cons.mpr (Or.inr h2))

theorem listMax_mem {l : List ℚ} (h : l ≠ []) : listMax l ∈ l := by
  match l with
  | x :: xs => exact foldl_max_mem x xs

theorem le_listMax {l : List ℚ} (y : ℚ) (hy : y ∈ l) : y ≤ listMax l := by
  match l with
  | x :: xs => exact le_foldl_max x xs y hy

theorem foldl_min_mem (x : ℚ) (xs : List ℚ) : xs.foldl min x ∈ x :: xs := by
  induction xs generalizing x with
  | nil => simp
  | cons a l ih =>
    have h := ih (min x a)
    rcases List.mem_cons.mp h with h1 | h1
    · rcases min_choice x a with h2 | h2 <;> rw [List.foldl_cons, h1, h2] <;> simp
    · simp only [List.foldl_cons, List.mem_cons]
      right; right; exact h1

theorem foldl_min_le (x : ℚ) (xs : List ℚ) : ∀ y ∈ x :: xs, xs.foldl min x ≤ y := by
  induction xs generalizing x with
  | nil => intro y hy; simp at hy; simp [hy]
  | cons a l ih =>
    intro y hy
    rcases List.mem_cons.mp hy with h1 | h1
    · calc l.foldl min (min x a) ≤ min x a := ih (min x a) (min x a) (List.mem_cons_self _ _)
        _ ≤ x := min_le_left x a
        _ = y := h1.symm
    · rcases List.mem_cons.mp h1 with h2 | h2
      · calc l.foldl min (min x a) ≤ min x a := ih (min x a) (min x a) (List.mem_cons_self _ _)
          _ ≤ a := min_le_right x a
          _ = y := h2.symm
      · exact ih (min x a) y (List.mem_cons.mpr (Or.inr h2))

theorem listMin_mem {l : List ℚ} (h : l ≠ []) : listMin l ∈ l := by
  match l with
  | x :: xs => exact foldl_min_mem x xs

theorem listMin_le {l : List ℚ} (y : ℚ) (hy : y ∈ l) : listMin l ≤ y := by
  match l with
  | x :: xs => exact foldl_min_le x xs y hy

theorem lastO_eq_getElem? (l : List (Option ℚ)) :
    lastO l = (l[l.length - 1]?).getD none := by
  rw [lastO, List.getLast?_eq_getElem?]

theorem lastO_replicate_none (n : ℕ) : lastO (List.replicate n none) = none := by
  rw [lastO_eq_getElem?, List.getElem?_replicate]
  split <;> rfl

theorem sum_take_eq (l : List ℚ) :
    ∀ w, w ≤ l.length → (l.take w).sum = ∑ j ∈ Finset.range w, l.getD j 0 := by
  intro w
  induction w with
  | zero => simp
  | succ w ih =>
    intro hw
    have hwlt : w < l.length := hw
    rw [List.take_succ, List.sum_append, ih (Nat.le_of_lt hwlt), Finset.sum_range_succ]
    have : l[w]? = some l[w] := List.getElem?_eq_getElem hwlt
    simp [this, List.getD_eq_getElem?_getD]

theorem slice_sum_eq (l : List ℚ) (k w : ℕ) (h : k + w ≤ l.length) :
    ((l.drop k).take w).sum = ∑ j ∈ Finset.range w, l.getD (k + j) 0 := by
  rw [sum_take_eq (l.drop k) w (by simp [List.length_drop]; omega)]
  refine Finset.sum_congr rfl fun j _ => ?_
  simp [List.getD_eq_getElem?_getD, List.getElem?_drop]

/-!
## Characterization of the running-sum loop
-/

theorem length_runningSums (values : List ℚ) (w : ℕ) (hwn : w ≤ values.length) :
    (runningSums values w).length = values.length - w + 1 := by
  simp only [runningSums, List.length_scanl, List.length_zip, List.length_drop]
  omega

theorem runningSums_getD (values : List ℚ) (w : ℕ) (hw : 0 < w) (hwn : w ≤ values.length) :
    ∀ k, k ≤ values.length - w →
      (runningSums values w).getD k 0 = ∑ j ∈ Finset.range w, values.getD (k + j) 0 := by
  intro k
  induction k with
  | zero =>
    intro _
    have h0 : (runningSums values w)[0]? = some (values.take w).sum := by
      simp [runningSums, List.getElem?_scanl_zero]
    rw [List.getD_eq_getElem?_getD, h0, Option.getD_some,
      sum_take_eq values w hwn]
    simp
  | succ k ih =>
    intro hk
    have hk1 : k ≤ values.length - w := by omega
    have hzip : ((values.drop w).zip values).length = values.length - w := by
      simp [List.length_zip, List.length_drop]
    have hlen : k + 1 < (runningSums values w).length := by
      rw [length_runningSums values w hwn]; omega
    have hklen : k < (runningSums values w).length := by omega
    have hkz : k < ((values.drop w).zip values).length := by omega
    rw [List.getD_eq_getElem?_getD, List.getElem?_eq_getElem hlen, Option.getD_some]
    have hlen2 : k + 1 < (List.scanl (fun (s : ℚ) (p : ℚ × ℚ) => s + p.1 - p.2)
        ((values.take w).sum) ((values.drop w).zip values)).length := by
      simpa [runningSums] using hlen
    have hklen2 : k < (List.scanl (fun (s : ℚ) (p : ℚ × ℚ) => s + p.1 - p.2)
        ((values.take w).sum) ((values.drop w).zip values)).length := by
      simpa [runningSums] using hklen
    have hsucc := List.getElem_succ_scanl
      (f := fun (s : ℚ) (p : ℚ × ℚ) => s + p.1 - p.2)
      (b := (values.take w).sum) (l := (values.drop w).zip values)
      (i := k) hlen2
    rw [show (runningSums values w)[k + 1] =
        (List.scanl (fun (s : ℚ) (p : ℚ × ℚ) => s + p.1 - p.2)
          ((values.take w).sum) ((values.drop w).zip values))[k + 1] from rfl, hsucc]
    have hz : ((values.drop w).zip values)[k] =
        (values.getD (w + k) 0, values.getD k 0) := by
      have h2 : k < values.length := by omega
      rw [List.getElem_zip]
      congr 1
      · rw [List.getElem_drop, List.getD_eq_getElem?_getD,
          List.getElem?_eq_getElem (by omega : w + k < values.length), Option.getD_some]
      · rw [List.getD_eq_getElem?_getD, List.getElem?_eq_getElem h2, Option.getD_some]
    rw [hz]
    have hscank : (List.scanl (fun (s : ℚ) (p : ℚ × ℚ) => s + p.1 - p.2)
        ((values.take w).sum) ((values.drop w).zip values))[k]
          = (runningSums values w).getD k 0 := by
      rw [List.getD_eq_getElem?_getD, List.getElem?_eq_getElem hklen, Option.getD_some]
      rfl
    rw [hscank, ih hk1]
    have hstep : ∑ j ∈ Finset.range w, values.getD (k + 1 + j) 0 =
        (∑ j ∈ Finset.range w, values.getD (k + j) 0) + values.getD (k + w) 0
          - values.getD k 0 := by
      have e1 : ∑ j ∈ Finset.range (w + 1), values.getD (k + j) 0 =
          (∑ j ∈ Finset.range w, values.getD (k + j) 0) + values.getD (k + w) 0 :=
        Finset.sum_range_succ _ w
      have e2 : ∑ j ∈ Finset.range (w + 1), values.getD (k + j) 0 =
          (∑ j ∈ Finset.range w, values.getD (k + (j + 1)) 0) + values.getD (k + 0) 0 :=
        Finset.sum_range_succ' _ w
      have e3 : ∑ j ∈ Finset.range w, values.getD (k + (j + 1)) 0 =
          ∑ j ∈ Finset.range w, values.getD (k + 1 + j) 0 :=
        Finset.sum_congr rfl fun j _ => by rw [show k + (j + 1) = k + 1 + j by omega]
      rw [e3] at e2
      rw [e2] at e1
      simp only [Nat.add_zero] at e1
      linarith
    rw [hstep, show w + k = k + w by omega]

/-!
## Shape and value lemmas for the rolling statistics
-/

theorem length_rollingMean (values : List ℚ) (window : ℤ) :
    (rollingMean values window).length = values.length := by
  rw [rollingMean]
  split
  · simp
  · rename_i h
    push_neg at h
    obtain ⟨h1, h2⟩ := h
    have hw : 0 < window.toNat := by omega
    have hwn : window.toNat ≤ values.length := by omega
    simp [List.length_append, List.length_replicate, List.length_map,
      length_runningSums values window.toNat hwn]
    omega

theorem length_rollingMax (values : List ℚ) (window : ℤ) :
    (rollingMax values window).length = values.length := by
  rw [rollingMax]
  split
  · simp
  · rename_i h
    push_neg at h
    obtain ⟨h1, h2⟩ := h
    have hw : 0 < window.toNat := by omega
    have hwn : window.toNat ≤ values.length := by omega
    simp [List.length_append, List.length_replicate, List.length_map,
      List.length_range]
    omega

theorem length_rollingMin (values : List ℚ) (window : ℤ) :
    (rollingMin values window).length = values.length := by
  rw [rollingMin]
  split
  · simp
  · rename_i h
    push_neg at h
    obtain ⟨h1, h2⟩ := h
    have hw : 0 < window.toNat := by omega
    have hwn : window.toNat ≤ values.length := by omega
    simp [List.length_append, List.length_replicate, List.length_map,
      List.length_range]
    omega

theorem rollingMean_getD_of_undefined (values : List ℚ) (window : ℤ)
    (h : (values.length : ℤ) < window ∨ window ≤ 0) (i : ℕ) :
    (rollingMean values window).getD i none = none := by
  rw [rollingMean, if_pos h, List.getD_eq_getElem?_getD, List.getElem?_replicate]
  split <;> rfl

theorem rollingMax_getD_of_undefined (values : List ℚ) (window : ℤ)
    (h : (values.length : ℤ) < window ∨ window ≤ 0) (i : ℕ) :
    (rollingMax values window).getD i none = none := by
  rw [rollingMax, if_pos h, List.getD_eq_getElem?_getD, List.getElem?_replicate]
  split <;> rfl

theorem rollingMin_getD_of_undefined (values : List ℚ) (window : ℤ)
    (h : (values.length : ℤ) < window ∨ window ≤ 0) (i : ℕ) :
    (rollingMin values window).getD i none = none := by
  rw [rollingMin, if_pos h, List.getD_eq_getElem?_getD, List.getElem?_replicate]
  split <;> rfl

theorem rollingMean_getD_of_sentinel (values : List ℚ) (window : ℤ)
    (h0 : 0 < window) (hn : window ≤ (values.length : ℤ))
    (i : ℕ) (hi : i + 1 < window.toNat) :
    (rollingMean values window).getD i none = none := by
  rw [rollingMean, if_neg (by omega), List.getD_eq_getElem?_getD,
    List.getElem?_append_left (by simp [List.length_replicate]; omega),
    List.getElem?_replicate, if_pos (by omega)]
  rfl

theorem rollingMax_getD_of_sentinel (values : List ℚ) (window : ℤ)
    (h0 : 0 < window) (hn : window ≤ (values.length : ℤ))
    (i : ℕ) (hi : i + 1 < window.toNat) :
    (rollingMax values window).getD i none = none := by
  rw [rollingMax, if_neg (by omega), List.getD_eq_getElem?_getD,
    List.getElem?_append_left (by simp [List.length_replicate]; omega),
    List.getElem?_replicate, if_pos (by omega)]
  rfl

theorem rollingMin_getD_of_sentinel (values : List ℚ) (window : ℤ)
    (h0 : 0 < window) (hn : window ≤ (values.length : ℤ))
    (i : ℕ) (hi : i + 1 < window.toNat) :
    (rollingMin values window).getD i none = none := by
  rw [rollingMin, if_neg (by omega), List.getD_eq_getElem?_getD,
    List.getElem?_append_left (by simp [List.length_replicate]; omega),
    List.getElem?_replicate, if_pos (by omega)]
  rfl

theorem rollingMean_getD_of_defined (values : List ℚ) (window : ℤ)
    (h0 : 0 < window) (hn : window ≤ (values.length : ℤ))
    (i : ℕ) (hi1 : window.toNat ≤ i + 1) (hi2 : i < values.length) :
    (rollingMean values window).getD i none =
      some ((trailingSlice values window.toNat i).sum / (window : ℚ)) := by
  have hw : 0 < window.toNat := by omega
  have hwn : window.toNat ≤ values.length := by omega
  set w := window.toNat with hwdef
  have hk : i - (w - 1) ≤ values.length - w := by omega
  rw [rollingMean, if_neg (by omega), List.getD_eq_getElem?_getD,
    List.getElem?_append_right (by simp [List.length_replicate]; omega)]
  have hidx : i - (List.replicate (w - 1) (none : Option ℚ)).length = i - (w - 1) := by
    simp [List.length_replicate]
  rw [hidx, List.getElem?_map]
  have hlt : i - (w - 1) < (runningSums values w).length := by
    rw [length_runningSums values w hwn]; omega
  rw [List.getElem?_eq_getElem hlt]
  have hval : (runningSums values w)[i - (w - 1)] =
      (runningSums values w).getD (i - (w - 1)) 0 := by
    rw [List.getD_eq_getElem?_getD, List.getElem?_eq_getElem hlt, Option.getD_some]
  simp only [Option.map_some', Option.getD_some]
  rw [hval, runningSums_getD values w hw hwn (i - (w - 1)) hk]
  rw [trailingSlice, show i + 1 - w = i - (w - 1) by omega,
    slice_sum_eq values (i - (w - 1)) w (by omega)]

theorem rollingMax_getD_of_defined (values : List ℚ) (window : ℤ)
    (h0 : 0 < window) (hn : window ≤ (values.length : ℤ))
    (i : ℕ) (hi1 : window.toNat ≤ i + 1) (hi2 : i < values.length) :
    (rollingMax values window).getD i none =
      some (listMax (trailingSlice values window.toNat i)) := by
  have hw : 0 < window.toNat := by omega
  have hwn : window.toNat ≤ values.length := by omega
  set w := window.toNat with hwdef
  rw [rollingMax, if_neg (by omega), List.getD_eq_getElem?_getD,
    List.getElem?_append_right (by simp [List.length_replicate]; omega)]
  have hidx : i - (List.replicate (w - 1) (none : Option ℚ)).length = i - (w - 1) := by
    simp [List.length_replicate]
  rw [hidx, List.getElem?_map, List.getElem?_range (by omega)]
  simp only [Option.map_some', Option.getD_some]
  rw [trailingSlice, show i + 1 - w = i - (w - 1) by omega]

theorem rollingMin_getD_of_defined (values : List ℚ) (window : ℤ)
    (h0 : 0 < window) (hn : window ≤ (values.length : ℤ))
    (i : ℕ) (hi1 : window.toNat ≤ i + 1) (hi2 : i < values.length) :
    (rollingMin values window).getD i none =
      some (listMin (trailingSlice values window.toNat i)) := by
  have hw : 0 < window.toNat := by omega
  have hwn : window.toNat ≤ values.length := by omega
  set w := window.toNat with hwdef
  rw [rollingMin, if_neg (by omega), List.getD_eq_getElem?_getD,
    List.getElem?_append_right (by simp [List.length_replicate]; omega)]
  have hidx : i - (List.replicate (w - 1) (none : Option ℚ)).length = i - (w - 1) := by
    simp [List.length_replicate]
  rw [hidx, List.getElem?_map, List.getElem?_range (by omega)]
  simp only [Option.map_some', Option.getD_some]
  rw [trailingSlice, show i + 1 - w = i - (w - 1) by omega]

theorem trailingSlice_ne_nil (values : List ℚ) (w i : ℕ) (hw : 0 < w)
    (hi : i < values.length) :
    trailingSlice values w i ≠ [] := by
  rw [trailingSlice]
  intro h
  have := congrArg List.length h
  simp [List.length_take, List.length_drop] at this
  omega

/-- Claim C3: for every float sequence of length `N` and every window `W`,
the rolling mean, rolling max and rolling min each return a sequence of
length `N`; index `i` holds the sentinel for `i < W - 1` and, for
`i ≥ W - 1`, the arithmetic mean / maximum / minimum respectively of the
trailing `W` values ending at `i` inclusive; when `W > N` or `W ≤ 0` every
index is the sentinel.  In particular the running-sum rolling-mean
implementation equals the naive trailing-mean definition at every defined
index. -/
theorem c3_rolling_statistics (values : List ℚ) (window : ℤ) (i : ℕ)
    (hi : i < values.length) :
    (rollingMean values window).length = values.length
    ∧ (rollingMax values window).length = values.length
    ∧ (rollingMin values window).length = values.length
    ∧ ((values.length : ℤ) < window ∨ window ≤ 0 →
        (rollingMean values window).getD i none = none
        ∧ (rollingMax values window).getD i none = none
        ∧ (rollingMin values window).getD i none = none)
    ∧ (0 < window → window ≤ (values.length : ℤ) → i + 1 < window.toNat →
        (rollingMean values window).getD i none = none
        ∧ (rollingMax values window).getD i none = none
        ∧ (rollingMin values window).getD i none = none)
    ∧ (0 < window → window ≤ (values.length : ℤ) → window.toNat ≤ i + 1 →
        (rollingMean values window).getD i none = some (trailingMean values window.toNat i)
        ∧ (rollingMax values window).getD i none
            = some (listMax (trailingSlice values window.toNat i))
        ∧ listMax (trailingSlice values window.toNat i) ∈ trailingSlice values window.toNat i
        ∧ (∀ y ∈ trailingSlice values window.toNat i,
            y ≤ listMax (trailingSlice values window.toNat i))
        ∧ (rollingMin values window).getD i none
            = some (listMin (trailingSlice values window.toNat i))
        ∧ listMin (trailingSlice values window.toNat i) ∈ trailingSlice values window.toNat i
        ∧ (∀ y ∈ trailingSlice values window.toNat i,
            listMin (trailingSlice values window.toNat i) ≤ y)) := by
  refine ⟨length_rollingMean values window, length_rollingMax values window,
    length_rollingMin values window,
    fun h => ⟨rollingMean_getD_of_undefined values window h i,
      rollingMax_getD_of_undefined values window h i,
      rollingMin_getD_of_undefined values window h i⟩,
    fun h0 hn hi1 => ⟨rollingMean_getD_of_sentinel values window h0 hn i hi1,
      rollingMax_getD_of_sentinel values window h0 hn i hi1,
      rollingMin_getD_of_sentinel values window h0 hn i hi1⟩,
    fun h0 hn hi1 => ?_⟩
  have hw : 0 < window.toNat := by omega
  have hne := trailingSlice_ne_nil values window.toNat i hw hi
  have hmean := rollingMean_getD_of_defined values window h0 hn i hi1 hi
  have hcast : ((window.toNat : ℚ)) = (window : ℚ) := by
    rw [show ((window.toNat : ℚ)) = ((window.toNat : ℤ) : ℚ) by push_cast; ring,
      Int.toNat_of_nonneg (by omega)]
  refine ⟨?_, rollingMax_getD_of_defined values window h0 hn i hi1 hi,
    listMax_mem hne, fun y hy => le_listMax y hy,
    rollingMin_getD_of_defined values window h0 hn i hi1 hi,
    listMin_mem hne, fun y hy => listMin_le y hy⟩
  rw [hmean, trailingMean, hcast]

/-- Witness for C3 at the concrete input `values = [1, 5, 2, 4]`,
`window = 2`, `i = 3`: the defined-index conjunct, together with the
evaluation of the naive trailing mean at that index. -/
theorem c3_rolling_statistics_witness :
    (rollingMean [1, 5, 2, 4] 2).getD 3 none = some (trailingMean [1, 5, 2, 4] 2 3)
    ∧ (rollingMax [1, 5, 2, 4] 2).getD 3 none
        = some (listMax (trailingSlice [1, 5, 2, 4] 2 3))
    ∧ (rollingMin [1, 5, 2, 4] 2).getD 3 none
        = some (listMin (trailingSlice [1, 5, 2, 4] 2 3))
    ∧ trailingMean [1, 5, 2, 4] 2 3 = 3
    ∧ listMax (trailingSlice [1, 5, 2, 4] 2 3) = 4
    ∧ listMin (trailingSlice [1, 5, 2, 4] 2 3) = 2 := by
  have h := (c3_rolling_statistics [1, 5, 2, 4] 2 3 (by decide)).2.2.2.2.2
    (by decide) (by decide) (by decide)
  refine ⟨h.1, h.2.1, h.2.2.2.2.1, ?_, ?_, ?_⟩
  · show (((([1, 5, 2, 4] : List ℚ).drop 2).take 2).sum / ((2 : ℕ) : ℚ)) = 3
    norm_num
  · rfl
  · rfl

/-!
## Lemmas for the exponential moving average
-/

theorem length_emaAux (values : List ℚ) (span : ℤ) :
    (emaAux values span).length = values.length - span.toNat + 1 := by
  simp [emaAux, List.length_scanl, List.length_drop]

theorem length_ema (values : List ℚ) (span : ℤ) :
    (ema values span).length = values.length := by
  rw [ema]
  split
  · simp
  · rename_i h
    push_neg at h
    simp [List.length_append, List.length_replicate, List.length_map, length_emaAux]
    omega

theorem ema_getD_of_undefined (values : List ℚ) (span : ℤ)
    (h : (values.length : ℤ) < span ∨ span ≤ 0) (i : ℕ) :
    (ema values span).getD i none = none := by
  rw [ema, if_pos h, List.getD_eq_getElem?_getD, List.getElem?_replicate]
  split <;> rfl

theorem ema_getD_of_sentinel (values : List ℚ) (span : ℤ)
    (h0 : 0 < span) (hn : span ≤ (values.length : ℤ))
    (i : ℕ) (hi : i + 1 < span.toNat) :
    (ema values span).getD i none = none := by
  rw [ema, if_neg (by omega), List.getD_eq_getElem?_getD,
    List.getElem?_append_left (by simp [List.length_replicate]; omega),
    List.getElem?_replicate, if_pos (by omega)]
  rfl

theorem ema_getD_entry (values : List ℚ) (span : ℤ)
    (h0 : 0 < span) (hn : span ≤ (values.length : ℤ))
    (i : ℕ) (hi1 : span.toNat ≤ i + 1) (hi2 : i < values.length) :
    (ema values span).getD i none =
      some ((emaAux values span).getD (i + 1 - span.toNat) 0) := by
  have hs : 0 < span.toNat := by omega
  have hsn : span.toNat ≤ values.length := by omega
  set s := span.toNat with hsdef
  rw [ema, if_neg (by omega), List.getD_eq_getElem?_getD,
    List.getElem?_append_right (by simp [List.length_replicate]; omega)]
  have hidx : i - (List.replicate (s - 1) (none : Option ℚ)).length = i + 1 - s := by
    simp [List.length_replicate]
    omega
  have hlt : i + 1 - s < (emaAux values span).length := by
    rw [length_emaAux]; omega
  rw [hidx, List.getElem?_map, List.getElem?_eq_getElem hlt]
  simp only [Option.map_some', Option.getD_some]
  rw [List.getD_eq_getElem?_getD, List.getElem?_eq_getElem hlt, Option.getD_some]

theorem emaAux_getD_zero (values : List ℚ) (span : ℤ) :
    (emaAux values span).getD 0 0 = (values.take span.toNat).sum / (span : ℚ) := by
  simp [emaAux, List.getD_eq_getElem?_getD, List.getElem?_scanl_zero]

theorem emaAux_getD_succ (values : List ℚ) (span : ℤ) (k : ℕ)
    (hk : k < values.length - span.toNat) :
    (emaAux values span).getD (k + 1) 0 =
      (2 / ((span : ℚ) + 1)) * values.getD (span.toNat + k) 0
        + (1 - 2 / ((span : ℚ) + 1)) * (emaAux values span).getD k 0 := by
  have hlen : k + 1 < (emaAux values span).length := by rw [length_emaAux]; omega
  have hklen : k < (emaAux values span).length := by omega
  have hkd : k < (values.drop span.toNat).length := by simp [List.length_drop]; omega
  rw [List.getD_eq_getElem?_getD, List.getElem?_eq_getElem hlen, Option.getD_some]
  have hlen2 : k + 1 < (List.scanl (fun (prev v : ℚ) =>
      (2 / ((span : ℚ) + 1)) * v + (1 - 2 / ((span : ℚ) + 1)) * prev)
      ((values.take span.toNat).sum / (span : ℚ)) (values.drop span.toNat)).length := by
    simpa [emaAux] using hlen
  have hklen2 : k < (List.scanl (fun (prev v : ℚ) =>
      (2 / ((span : ℚ) + 1)) * v + (1 - 2 / ((span : ℚ) + 1)) * prev)
      ((values.take span.toNat).sum / (span : ℚ)) (values.drop span.toNat)).length := by
    simpa [emaAux] using hklen
  have hsucc := List.getElem_succ_scanl
    (f := fun (prev v : ℚ) =>
      (2 / ((span : ℚ) + 1)) * v + (1 - 2 / ((span : ℚ) + 1)) * prev)
    (b := (values.take span.toNat).sum / (span : ℚ)) (l := values.drop span.toNat)
    (i := k) hlen2
  rw [show (emaAux values span)[k + 1] =
      (List.scanl (fun (prev v : ℚ) =>
        (2 / ((span : ℚ) + 1)) * v + (1 - 2 / ((span : ℚ) + 1)) * prev)
        ((values.take span.toNat).sum / (span : ℚ)) (values.drop span.toNat))[k + 1]
          from rfl, hsucc]
  have h1 : (values.drop span.toNat)[k] = values.getD (span.toNat + k) 0 := by
    rw [List.getElem_drop, List.getD_eq_getElem?_getD,
      List.getElem?_eq_getElem (by omega : span.toNat + k < values.length),
      Option.getD_some]
  have h2 : (List.scanl (fun (prev v : ℚ) =>
      (2 / ((span : ℚ) + 1)) * v + (1 - 2 / ((span : ℚ) + 1)) * prev)
      ((values.take span.toNat).sum / (span : ℚ)) (values.drop span.toNat))[k]
        = (emaAux values span).getD k 0 := by
    rw [List.getD_eq_getElem?_getD, List.getElem?_eq_getElem hklen, Option.getD_some]
    rfl
  rw [h1, h2]

/-- Claim C5: for every float sequence of length `N ≥ span` and
`span > 0`, the exponential moving average holds the sentinel at indices
below `span - 1`, holds at index `span - 1` the simple mean of the first
`span` values, and at every index `i ≥ span` satisfies
`ema[i] = alpha * value[i] + (1 - alpha) * ema[i-1]` with
`alpha = 2 / (span + 1)`; when `span > N` or `span ≤ 0` every index is the
sentinel. -/
theorem c5_ema (values : List ℚ) (span : ℤ) (i : ℕ) (hi : i < values.length) :
    (ema values span).length = values.length
    ∧ ((values.length : ℤ) < span ∨ span ≤ 0 → (ema values span).getD i none = none)
    ∧ (0 < span → span ≤ (values.length : ℤ) → i + 1 < span.toNat →
        (ema values span).getD i none = none)
    ∧ (0 < span → span ≤ (values.length : ℤ) → i = span.toNat - 1 →
        (ema values span).getD i none =
          some ((values.take span.toNat).sum / (span : ℚ)))
    ∧ (0 < span → span ≤ (values.length : ℤ) → span.toNat ≤ i →
        ∀ a, (ema values span).getD (i - 1) none = some a →
          (ema values span).getD i none =
            some ((2 / ((span : ℚ) + 1)) * values.getD i 0
              + (1 - 2 / ((span : ℚ) + 1)) * a)) := by
  refine ⟨length_ema values span,
    fun h => ema_getD_of_undefined values span h i,
    fun h0 hn hs => ema_getD_of_sentinel values span h0 hn i hs,
    fun h0 hn hseed => ?_,
    fun h0 hn hrec a ha => ?_⟩
  · have hs : 0 < span.toNat := by omega
    rw [ema_getD_entry values span h0 hn i (by omega) hi,
      show i + 1 - span.toNat = 0 by omega, emaAux_getD_zero]
  · have hs : 0 < span.toNat := by omega
    rw [ema_getD_entry values span h0 hn (i - 1) (by omega) (by omega)] at ha
    have ha2 : (emaAux values span).getD (i - span.toNat) 0 = a := by
      have := Option.some.inj ha
      rw [show i - 1 + 1 - span.toNat = i - span.toNat by omega] at this
      exact this
    rw [ema_getD_entry values span h0 hn i (by omega) hi,
      show i + 1 - span.toNat = (i - span.toNat) + 1 by omega,
      emaAux_getD_succ values span (i - span.toNat) (by omega),
      show span.toNat + (i - span.toNat) = i by omega, ha2]

/-- Witness for C5 at `values = [1, 2, 3, 4]`, `span = 2`: the seed at
index 1 is the mean `3/2` of the first two values and index 2 satisfies
the recurrence with `alpha = 2/3`. -/
theorem c5_ema_witness :
    (ema [1, 2, 3, 4] 2).getD 1 none = some ((([1, 2, 3, 4] : List ℚ).take 2).sum / 2)
    ∧ (ema [1, 2, 3, 4] 2).getD 2 none =
        some ((2 / 3) * ([1, 2, 3, 4] : List ℚ).getD 2 0 + (1 - 2 / 3) * (3 / 2)) := by
  have h1 := (c5_ema [1, 2, 3, 4] 2 1 (by decide)).2.2.2.1 (by decide) (by decide) (by decide)
  have hseed : (ema [1, 2, 3, 4] 2).getD 1 none = some (3 / 2) := by
    rw [h1]
    congr 1
    show (((1 : ℚ) + (2 + 0)) / (2 : ℤ)) = 3 / 2
    norm_num
  have h2 := (c5_ema [1, 2, 3, 4] 2 2 (by decide)).2.2.2.2 (by decide) (by decide)
    (by decide) (3 / 2) hseed
  refine ⟨h1, ?_⟩
  rw [h2]
  norm_num

/-!
## Lemmas for the true range and ATR
-/

theorem getElem?_zip_of_lt {α β : Type} (l1 : List α) (l2 : List β) (i : ℕ)
    (h1 : i < l1.length) (h2 : i < l2.length) :
    (l1.zip l2)[i]? = some (l1[i], l2[i]) :=
  List.getElem?_zip_eq_some.mpr ⟨List.getElem?_eq_getElem h1, List.getElem?_eq_getElem h2⟩

theorem length_trueRange (high low close : List ℚ)
    (hh : high.length = close.length) (hl : low.length = close.length)
    (hne : close ≠ []) :
    (trueRange high low close).length = close.length := by
  have hcpos : 0 < close.length := List.length_pos.mpr hne
  rcases high with _ | ⟨h0, ht⟩
  · simp at hh; omega
  rcases low with _ | ⟨l0, lt⟩
  · simp at hl; omega
  simp only [trueRange, List.length_cons, List.length_map, List.length_zip,
    List.length_drop] at hh hl ⊢
  omega

theorem trueRange_getD_zero (high low close : List ℚ)
    (hh : high.length = close.length) (hl : low.length = close.length)
    (hne : close ≠ []) :
    (trueRange high low close).getD 0 0 = high.getD 0 0 - low.getD 0 0 := by
  have hcpos : 0 < close.length := List.length_pos.mpr hne
  rcases high with _ | ⟨h0, ht⟩
  · simp at hh; omega
  rcases low with _ | ⟨l0, lt⟩
  · simp at hl; omega
  rfl

theorem trueRange_getD_succ (high low close : List ℚ)
    (hh : high.length = close.length) (hl : low.length = close.length)
    (i : ℕ) (h0i : 0 < i) (hi : i < close.length) :
    (trueRange high low close).getD i 0 =
      max (high.getD i 0 - low.getD i 0)
        (max |high.getD i 0 - close.getD (i - 1) 0|
          |low.getD i 0 - close.getD (i - 1) 0|) := by
  rcases high with _ | ⟨h0, ht⟩
  · simp at hh; omega
  rcases low with _ | ⟨l0, lt⟩
  · simp at hl; omega
  obtain ⟨j, rfl⟩ : ∃ j, i = j + 1 := ⟨i - 1, by omega⟩
  simp only [List.length_cons] at hh hl
  have hj : j < close.length - 1 := by omega
  have hd1 : j < ((h0 :: ht).drop 1).length := by simp; omega
  have hd2 : j < ((l0 :: lt).drop 1).length := by simp; omega
  have hdz : j < (((h0 :: ht).drop 1).zip ((l0 :: lt).drop 1)).length := by
    simp [List.length_zip]; omega
  have hjc : j < close.length := by omega
  have hz1 : (((h0 :: ht).drop 1).zip ((l0 :: lt).drop 1))[j]? =
      some (((h0 :: ht).drop 1)[j], ((l0 :: lt).drop 1)[j]) :=
    getElem?_zip_of_lt _ _ j hd1 hd2
  have hz1e : (((h0 :: ht).drop 1).zip ((l0 :: lt).drop 1))[j] =
      (((h0 :: ht).drop 1)[j], ((l0 :: lt).drop 1)[j]) := by
    rw [List.getElem?_eq_getElem hdz] at hz1
    exact Option.some.inj hz1
  have hz : ((((h0 :: ht).drop 1).zip ((l0 :: lt).drop 1)).zip close)[j]? =
      some ((((h0 :: ht).drop 1)[j], ((l0 :: lt).drop 1)[j]),
        close[j]) := by
    rw [getElem?_zip_of_lt _ _ j hdz hjc, hz1e]
  have hshape : trueRange (h0 :: ht) (l0 :: lt) close =
      (h0 - l0) :: ((((h0 :: ht).drop 1).zip ((l0 :: lt).drop 1)).zip close).map
        (fun p => max (p.1.1 - p.1.2) (max |p.1.1 - p.2| |p.1.2 - p.2|)) := rfl
  rw [hshape, List.getD_cons_succ, List.getD_eq_getElem?_getD, List.getElem?_map, hz]
  simp only [Option.map_some', Option.getD_some]
  have e1 : ((h0 :: ht).drop 1)[j] = (h0 :: ht).getD (j + 1) 0 := by
    rw [List.getD_eq_getElem?_getD, (by omega : j + 1 = 1 + j), ← List.getElem?_drop,
      List.getElem?_eq_getElem hd1, Option.getD_some]
  have e2 : ((l0 :: lt).drop 1)[j] = (l0 :: lt).getD (j + 1) 0 := by
    rw [List.getD_eq_getElem?_getD, (by omega : j + 1 = 1 + j), ← List.getElem?_drop,
      List.getElem?_eq_getElem hd2, Option.getD_some]
  have e3 : close[j] = close.getD (j + 1 - 1) 0 := by
    rw [List.getD_eq_getElem?_getD, (by omega : j + 1 - 1 = j),
      List.getElem?_eq_getElem hjc, Option.getD_some]
  rw [e1, e2, e3]

/-- Claim C4: for every non-empty high/low/close triple of equal length
and every window, the true range at index 0 equals `high[0] - low[0]`; at
every index `i > 0` it equals
`max(high[i] - low[i], |high[i] - close[i-1]|, |low[i] - close[i-1]|)`;
and the returned ATR sequence is exactly the rolling mean of that
true-range sequence over the requested window. -/
theorem c4_atr (high low close : List ℚ) (window : ℤ)
    (hh : high.length = close.length) (hl : low.length = close.length)
    (hne : close ≠ []) :
    atr high low close window = some (rollingMean (trueRange high low close) window)
    ∧ (trueRange high low close).length = close.length
    ∧ (trueRange high low close).getD 0 0 = high.getD 0 0 - low.getD 0 0
    ∧ ∀ i, 0 < i → i < close.length →
        (trueRange high low close).getD i 0 =
          max (high.getD i 0 - low.getD i 0)
            (max |high.getD i 0 - close.getD (i - 1) 0|
              |low.getD i 0 - close.getD (i - 1) 0|) := by
  refine ⟨?_, length_trueRange high low close hh hl hne,
    trueRange_getD_zero high low close hh hl hne,
    fun i h0i hi => trueRange_getD_succ high low close hh hl i h0i hi⟩
  rw [atr, if_neg (by simp [List.isEmpty_iff, hne])]

/-- Witness for C4 at `high = [3, 5]`, `low = [1, 2]`, `close = [2, 4]`,
`window = 1`, with the true-range entries evaluated. -/
theorem c4_atr_witness :
    atr [3, 5] [1, 2] [2, 4] 1 = some (rollingMean (trueRange [3, 5] [1, 2] [2, 4]) 1)
    ∧ (trueRange [3, 5] [1, 2] [2, 4]).getD 0 0 = 2
    ∧ (trueRange [3, 5] [1, 2] [2, 4]).getD 1 0 =
        max ((5 : ℚ) - 2) (max |(5 : ℚ) - 2| |(2 : ℚ) - 2|)
    ∧ (trueRange [3, 5] [1, 2] [2, 4]).getD 1 0 = 3 := by
  have h := c4_atr [3, 5] [1, 2] [2, 4] 1 (by decide) (by decide) (by decide)
  have h4 := h.2.2.2 1 (by decide) (by decide)
  refine ⟨h.1, ?_, h4, ?_⟩
  · rw [h.2.2.1]
    norm_num
  · rw [h4]
    norm_num

/-!
## The position sizer
-/

/-- Claim C6: the position sizer fails with a validation error iff
`entry_price ≤ 0` or `atr ≤ 0`; otherwise it returns
`risk_capital = equity * risk_fraction`,
`stop_price = entry_price - atr_multiplier * atr` and, when
`per_share_risk = entry_price - stop_price` is positive,
`shares = ⌊risk_capital / per_share_risk⌋` with
`exposure = shares * entry_price`; when `per_share_risk ≤ 0` it returns
zero shares and no exposure entry. -/
theorem c6_size_position (cfg : PositionSizerConfig) (e a : ℚ) :
    ((∃ msg, size_position cfg e a = .error msg) ↔ e ≤ 0 ∨ a ≤ 0)
    ∧ (0 < e → 0 < a → 0 < e - (e - cfg.atr_multiplier * a) →
        size_position cfg e a = .ok
          { shares := ⌊cfg.account_equity * cfg.risk_fraction
              / (e - (e - cfg.atr_multiplier * a))⌋,
            stop_price := e - cfg.atr_multiplier * a,
            risk_capital := cfg.account_equity * cfg.risk_fraction,
            exposure := some ((⌊cfg.account_equity * cfg.risk_fraction
              / (e - (e - cfg.atr_multiplier * a))⌋ : ℚ) * e) })
    ∧ (0 < e → 0 < a → e - (e - cfg.atr_multiplier * a) ≤ 0 →
        size_position cfg e a = .ok
          { shares := 0,
            stop_price := e - cfg.atr_multiplier * a,
            risk_capital := cfg.account_equity * cfg.risk_fraction,
            exposure := none }) := by
  refine ⟨⟨fun ⟨msg, hmsg⟩ => ?_, fun h => ?_⟩, fun he ha hp => ?_, fun he ha hp => ?_⟩
  · by_contra hcon
    push_neg at hcon
    rw [size_position, if_neg (by linarith), if_neg (by linarith)] at hmsg
    by_cases hip : e - (e - cfg.atr_multiplier * a) ≤ 0
    · rw [if_pos hip] at hmsg
      exact Except.noConfusion hmsg
    · rw [if_neg hip] at hmsg
      exact Except.noConfusion hmsg
  · rcases h with h | h
    · exact ⟨"Entry price must be positive", by rw [size_position, if_pos h]⟩
    · by_cases he : e ≤ 0
      · exact ⟨"Entry price must be positive", by rw [size_position, if_pos he]⟩
      · exact ⟨"ATR must be positive", by rw [size_position, if_neg he, if_pos h]⟩
  · rw [size_position, if_neg (by linarith), if_neg (by linarith), if_neg (by linarith)]
  · rw [size_position, if_neg (by linarith), if_neg (by linarith), if_pos hp]

/-- Witness for C6: the worked example
`entry_price = 100, atr = 5, atr_multiplier = 2, equity = 100000,
risk_fraction = 0.01` gives `stop_price = 90`, `risk_capital = 1000`,
`shares = 100`, `exposure = 10000`; and `entry_price = 0` is rejected. -/
theorem c6_size_position_witness :
    size_position {} 100 5 = .ok
      { shares := 100, stop_price := 90, risk_capital := 1000,
        exposure := some 10000 }
    ∧ (∃ msg, size_position {} 0 5 = .error msg) := by
  constructor
  · have h := (c6_size_position {} 100 5).2.1 (by norm_num) (by norm_num) (by norm_num)
    rw [h]
    norm_num
  · exact ((c6_size_position {} 0 5).1).mpr (Or.inl (by norm_num))

/-!
## The adaptive tuner
-/

/-- The chronological tail of the most recent `min_samples` records
(`records[-min_samples:]` for positive `min_samples`). -/
def recentRecords (min_samples : ℕ) (records : List TradeRecord) : List TradeRecord :=
  records.drop (records.length - min_samples)

/-- The win rate over a window: the fraction of records with positive
percent return. -/
def winRate (rs : List TradeRecord) : ℚ :=
  ((rs.map TradeRecord.return_pct).filter (fun v => 0 < v)).length / rs.length

/-- The mean percent return over a window. -/
def meanReturn (rs : List TradeRecord) : ℚ :=
  (rs.map TradeRecord.return_pct).sum / rs.length

theorem length_recentRecords (min_samples : ℕ) (records : List TradeRecord)
    (h : min_samples ≤ records.length) :
    (recentRecords min_samples records).length = min_samples := by
  simp [recentRecords, List.length_drop]
  omega

/-- Claim C7: for every journal (with a positive sample window) and
config, `adapt_config` over the most recent `min_samples` records returns
the input config unchanged when fewer than `min_samples` records exist;
otherwise, computing the win rate and mean return over exactly that
trailing window (whose length is then exactly `min_samples`): if
`winRate > 0.6` and `meanReturn > 0` it returns a config with
`rs_threshold = min (old + 5) 95` and
`max_pct_off_high = max (old - 0.02) 0.15`; else if `winRate < 0.4` it
returns `rs_threshold = max (old - 5) 60` and
`min_pct_from_low = max (old - 0.05) 0.10`; else it returns the config
unchanged.  The three remaining fields are always unchanged. -/
theorem c7_adapt_config (min_samples : ℕ) (records : List TradeRecord)
    (config : StrategyConfig) (hpos : 0 < min_samples) :
    (records.length < min_samples → adapt_config min_samples records config = config)
    ∧ (min_samples ≤ records.length →
        (recentRecords min_samples records).length = min_samples
        ∧ (winRate (recentRecords min_samples records) > 3 / 5
            ∧ meanReturn (recentRecords min_samples records) > 0 →
            adapt_config min_samples records config =
              { config with
                  rs_threshold := min (config.rs_threshold + 5) 95,
                  max_pct_off_high := max (config.max_pct_off_high - 1 / 50) (3 / 20) })
        ∧ (¬ (winRate (recentRecords min_samples records) > 3 / 5
            ∧ meanReturn (recentRecords min_samples records) > 0) →
            winRate (recentRecords min_samples records) < 2 / 5 →
            adapt_config min_samples records config =
              { config with
                  rs_threshold := max (config.rs_threshold - 5) 60,
                  min_pct_from_low := max (config.min_pct_from_low - 1 / 20) (1 / 10) })
        ∧ (¬ (winRate (recentRecords min_samples records) > 3 / 5
            ∧ meanReturn (recentRecords min_samples records) > 0) →
            ¬ winRate (recentRecords min_samples records) < 2 / 5 →
            adapt_config min_samples records config = config))
    ∧ (adapt_config min_samples records config).min_volume_dry_up_ratio
        = config.min_volume_dry_up_ratio
    ∧ (adapt_config min_samples records config).trend_lookback = config.trend_lookback
    ∧ (adapt_config min_samples records config).min_base_length
        = config.min_base_length := by
  have hlen : (records.drop (records.length - min_samples)).length
      = records.length - (records.length - min_samples) := List.length_drop _ _
  constructor
  · intro hlt
    simp only [adapt_config]
    rw [if_pos (by omega)]
  refine ⟨fun hge => ⟨length_recentRecords min_samples records hge, ?_, ?_, ?_⟩, ?_, ?_, ?_⟩
  · intro hbranch
    simp only [winRate, meanReturn, recentRecords] at hbranch
    simp only [adapt_config, List.length_map]
    rw [if_neg (by omega), if_pos hbranch]
  · intro hnb hlow
    simp only [winRate, meanReturn, recentRecords] at hnb hlow
    simp only [adapt_config, List.length_map]
    rw [if_neg (by omega), if_neg hnb, if_pos hlow]
  · intro hnb hnlow
    simp only [winRate, meanReturn, recentRecords] at hnb hnlow
    simp only [adapt_config, List.length_map]
    rw [if_neg (by omega), if_neg hnb, if_neg hnlow]
  · simp only [adapt_config]
    split
    · rfl
    split
    · rfl
    split <;> rfl
  · simp only [adapt_config]
    split
    · rfl
    split
    · rfl
    split <;> rfl
  · simp only [adapt_config]
    split
    · rfl
    split
    · rfl
    split <;> rfl

/-- Witness for C7: five straight winning trades (each with percent
return `1/10`) against the default configuration raise the relative
strength threshold to 75 and tighten the off-high tolerance to `0.23`. -/
theorem c7_adapt_config_witness :
    adapt_config 5 (List.replicate 5
      { symbol := "A", entry_price := 10, exit_price := 11, shares := 1,
        entry_date := "2024-01-01", exit_date := "2024-01-02" }) {} =
      { rs_threshold := 75, max_pct_off_high := 23 / 100, min_pct_from_low := 3 / 10,
        min_volume_dry_up_ratio := 1 / 2, trend_lookback := 10,
        min_base_length := 35 } := by
  have h := ((c7_adapt_config 5 (List.replicate 5
      { symbol := "A", entry_price := 10, exit_price := 11, shares := 1,
        entry_date := "2024-01-01", exit_date := "2024-01-02" }) {}
    (by decide)).2.1 (by decide)).2.1
    (by
      constructor
      · show winRate _ > 3 / 5
        rw [winRate]
        norm_num [recentRecords, TradeRecord.return_pct]
      · show meanReturn _ > 0
        rw [meanReturn]
        norm_num [recentRecords, TradeRecord.return_pct])
  rw [h]
  show ({ rs_threshold := min ((70 : ℚ) + 5) 95,
          max_pct_off_high := max ((1 / 4 : ℚ) - 1 / 50) (3 / 20),
          min_pct_from_low := 3 / 10, min_volume_dry_up_ratio := 1 / 2,
          trend_lookback := 10, min_base_length := 35 } : StrategyConfig) = _
  norm_num [min_def, max_def]

/-!
## The strategy evaluator
-/

/-- `Except.isOk` written out (the source signals failure by raising). -/
def isOkE {ε α : Type} : Except ε α → Bool
  | .ok _ => true
  | .error _ => false

theorem buildIndicators_close (p : PriceData) (a14 : List (Option ℚ)) :
    (buildIndicators p a14).close = p.close := by simp only [buildIndicators]

theorem buildIndicators_sma_50 (p : PriceData) (a14 : List (Option ℚ)) :
    (buildIndicators p a14).sma_50 = rollingMean p.close 50 := by simp only [buildIndicators]

theorem buildIndicators_sma_150 (p : PriceData) (a14 : List (Option ℚ)) :
    (buildIndicators p a14).sma_150 = rollingMean p.close 150 := by simp only [buildIndicators]

theorem buildIndicators_sma_200 (p : PriceData) (a14 : List (Option ℚ)) :
    (buildIndicators p a14).sma_200 = rollingMean p.close 200 := by simp only [buildIndicators]

theorem buildIndicators_atr_14 (p : PriceData) (a14 : List (Option ℚ)) :
    (buildIndicators p a14).atr_14 = a14 := by simp only [buildIndicators]

theorem buildIndicators_high_52 (p : PriceData) (a14 : List (Option ℚ)) :
    (buildIndicators p a14).high_52 = rollingMax p.high 252 := by simp only [buildIndicators]

theorem buildIndicators_low_52 (p : PriceData) (a14 : List (Option ℚ)) :
    (buildIndicators p a14).low_52 = rollingMin p.low 252 := by simp only [buildIndicators]

theorem buildIndicators_pct_off_high (p : PriceData) (a14 : List (Option ℚ)) :
    (buildIndicators p a14).pct_off_high =
      (p.close.zip (rollingMax p.high 252)).map (fun q =>
        match q.2 with
        | some hv => if hv = 0 then none else some ((hv - q.1) / hv)
        | none => none) := by simp only [buildIndicators]

theorem buildIndicators_pct_from_low (p : PriceData) (a14 : List (Option ℚ)) :
    (buildIndicators p a14).pct_from_low =
      (p.close.zip (rollingMin p.low 252)).map (fun q =>
        match q.2 with
        | some lv => if lv = 0 then none else some ((q.1 - lv) / lv)
        | none => none) := by simp only [buildIndicators]

theorem buildIndicators_volume_dry_up (p : PriceData) (a14 : List (Option ℚ)) :
    (buildIndicators p a14).volume_dry_up =
      ((rollingMean p.volume 10).zip (rollingMean p.volume 50)).map (fun q =>
        match q.1, q.2 with
        | some a10, some a50 => if 0 < a50 then some (a10 / a50) else none
        | _, _ => none) := by simp only [buildIndicators]

theorem calculateIndicators_ok (p : PriceData)
    (hv : validateInputs p = true) (hne : p.close ≠ []) :
    calculateIndicators p =
      .ok (buildIndicators p (rollingMean (trueRange p.high p.low p.close) 14)) := by
  rw [calculateIndicators, if_neg (by simp [hv]), atr,
    if_neg (by simp [List.isEmpty_iff, hne])]

/-- Claim C10: validation does not enforce the data model's
positive-length invariant: the all-empty input passes validation, after
which `calculate_indicators` fails with an unguarded index error (from
index 0 of the true-range computation) rather than a validation error, and
`evaluate` propagates it; for validated series of length at least one both
are total. -/
theorem c10_validation_gap (cfg : StrategyConfig) (rs : ℚ) (bl : ℤ) :
    validateInputs { close := [], high := [], low := [], volume := [] } = true
    ∧ atr ([] : List ℚ) [] [] 14 = none
    ∧ calculateIndicators { close := [], high := [], low := [], volume := [] }
        = .error .indexError
    ∧ evaluate cfg { close := [], high := [], low := [], volume := [] } rs bl
        = .error .indexError
    ∧ (∀ p : PriceData, validateInputs p = true → p.close ≠ [] →
        isOkE (calculateIndicators p) = true
        ∧ isOkE (evaluate cfg p rs bl) = true) := by
  refine ⟨rfl, rfl, rfl, rfl, fun p hv hne => ?_⟩
  rw [evaluate, calculateIndicators_ok p hv hne]
  exact ⟨rfl, rfl⟩

/-- Witness for C10 applied at the default configuration, relative
strength 80 and base length 40, including the totality conjunct at a
length-one input. -/
theorem c10_validation_gap_witness :
    calculateIndicators { close := [], high := [], low := [], volume := [] }
        = .error .indexError
    ∧ evaluate {} { close := [], high := [], low := [], volume := [] } 80 40
        = .error .indexError
    ∧ isOkE (calculateIndicators { close := [5], high := [6], low := [4], volume := [7] })
        = true := by
  have h := c10_validation_gap {} 80 40
  exact ⟨h.2.2.1, h.2.2.2.1,
    (h.2.2.2.2 { close := [5], high := [6], low := [4], volume := [7] }
      (by decide) (by decide)).1⟩

/-- Claim C2: for every validated price series of positive length shorter
than 200 periods (so that the 200-period moving average is undefined at
the latest index), and for every supplied relative strength and base
length, `evaluate` returns `qualifies = false`, `score = 0`, the single
insufficient-data reason, and the latest close as both entry and stop
price, running no further checks. -/
theorem c2_insufficient_history (cfg : StrategyConfig) (p : PriceData)
    (rs : ℚ) (bl : ℤ) (hv : validateInputs p = true) (hne : p.close ≠ [])
    (hlen : p.close.length < 200) :
    evaluate cfg p rs bl = .ok
      { qualifies := false, score := 0,
        reasons := ["Not enough data to compute moving averages"],
        metrics_atr_14 := none, metrics_relative_strength := rs,
        entry_price := lastD p.close, stop_price := some (lastD p.close) } := by
  rw [evaluate, calculateIndicators_ok p hv hne]
  show Except.ok (evaluateInd cfg _ rs bl) = _
  have h200 : lastO (buildIndicators p
      (rollingMean (trueRange p.high p.low p.close) 14)).sma_200 = none := by
    rw [buildIndicators_sma_200, rollingMean, if_pos (by left; exact_mod_cast hlen),
      lastO_replicate_none]
  rcases h50 : lastO (buildIndicators p
      (rollingMean (trueRange p.high p.low p.close) 14)).sma_50 with _ | v50 <;>
    rcases h150 : lastO (buildIndicators p
      (rollingMean (trueRange p.high p.low p.close) 14)).sma_150 with _ | v150 <;>
    simp only [evaluateInd, h50, h150, h200] <;>
    rw [buildIndicators_close]

/-- Witness for C2: a one-period series with relative strength 0 and base
length 40 early-exits with exactly the insufficient-data reason. -/
theorem c2_insufficient_history_witness :
    evaluate {} { close := [5], high := [6], low := [4], volume := [7] } 0 40 = .ok
      { qualifies := false, score := 0,
        reasons := ["Not enough data to compute moving averages"],
        metrics_atr_14 := none, metrics_relative_strength := 0,
        entry_price := 5, stop_price := some 5 } := by
  have h := c2_insufficient_history {}
    { close := [5], high := [6], low := [4], volume := [7] } 0 40
    (by decide) (by decide) (by decide)
  rw [h]
  rfl

/-- Claim C1: for every evaluation that passes the
moving-average-availability gate, the returned evaluation has
`qualifies = true` iff the accumulated reasons list is empty; its score
equals the unweighted mean of the four clamped components when it
qualifies and `0` when it does not; its entry price is the latest close
and its stop price is the latest close minus `2` times the latest
14-period ATR. -/
theorem c1_evaluate_post_gate (cfg : StrategyConfig) (p : PriceData)
    (rs : ℚ) (bl : ℤ) (ind : IndicatorSet)
    (hind : calculateIndicators p = .ok ind)
    (h50 : (lastO ind.sma_50).isSome = true)
    (h150 : (lastO ind.sma_150).isSome = true)
    (h200 : (lastO ind.sma_200).isSome = true) :
    evaluate cfg p rs bl = .ok (evaluateInd cfg ind rs bl)
    ∧ ((evaluateInd cfg ind rs bl).qualifies = true
        ↔ (evaluateInd cfg ind rs bl).reasons = [])
    ∧ ((evaluateInd cfg ind rs bl).qualifies = true →
        ∀ poh pfl vdu, lastO ind.pct_off_high = some poh →
          lastO ind.pct_from_low = some pfl → lastO ind.volume_dry_up = some vdu →
          (evaluateInd cfg ind rs bl).score =
            (min (rs / 100) 1 + min (1 - poh) 1 + min pfl 1
              + min (vdu / (3 / 2)) 1) / 4)
    ∧ ((evaluateInd cfg ind rs bl).qualifies = false →
        (evaluateInd cfg ind rs bl).score = 0)
    ∧ (evaluateInd cfg ind rs bl).entry_price = lastD ind.close
    ∧ (∀ a, lastO ind.atr_14 = some a →
        (evaluateInd cfg ind rs bl).stop_price = some (lastD ind.close - 2 * a)) := by
  obtain ⟨m50, hm50⟩ := Option.isSome_iff_exists.mp h50
  obtain ⟨m150, hm150⟩ := Option.isSome_iff_exists.mp h150
  obtain ⟨m200, hm200⟩ := Option.isSome_iff_exists.mp h200
  have hev : evaluateInd cfg ind rs bl =
      { qualifies := (allReasons cfg ind rs bl m50 m150 m200).isEmpty
        score := if (allReasons cfg ind rs bl m50 m150 m200).isEmpty then
            scoreOf ind rs else 0
        reasons := allReasons cfg ind rs bl m50 m150 m200
        metrics_atr_14 := lastO ind.atr_14
        metrics_relative_strength := rs
        entry_price := lastD ind.close
        stop_price := (lastO ind.atr_14).map (fun a => lastD ind.close - 2 * a) } := by
    rw [evaluateInd, hm50, hm150, hm200]
  refine ⟨?_, ?_, ?_, ?_, ?_, ?_⟩
  · rw [evaluate, hind]
    rfl
  · rw [hev]
    exact List.isEmpty_iff
  · intro hq poh pfl vdu hpoh hpfl hvdu
    rw [hev] at hq ⊢
    simp only at hq ⊢
    rw [if_pos hq, scoreOf, hpoh, hpfl, hvdu]
    rfl
  · intro hq
    rw [hev] at hq ⊢
    simp only at hq ⊢
    rw [if_neg (by simp [hq])]
  · rw [hev]
  · intro a ha
    rw [hev]
    simp only [ha, Option.map_some']

/-- A 200-period constant-price series used as the C1 witness: long
enough for all three moving averages, too short for the 252-period
extremes. -/
def wPrice : PriceData :=
  { close := List.replicate 200 10, high := List.replicate 200 12,
    low := List.replicate 200 9, volume := List.replicate 200 100 }

set_option maxRecDepth 2000 in
theorem wPrice_ok : calculateIndicators wPrice =
    .ok (buildIndicators wPrice
      (rollingMean (trueRange wPrice.high wPrice.low wPrice.close) 14)) :=
  calculateIndicators_ok wPrice (by decide) (by decide)

theorem lastO_rollingMean_isSome (values : List ℚ) (window : ℤ)
    (h0 : 0 < window) (hn : window ≤ (values.length : ℤ)) :
    (lastO (rollingMean values window)).isSome = true := by
  have hlen : (rollingMean values window).length = values.length :=
    length_rollingMean values window
  have hnn : 0 < values.length := by omega
  rw [lastO_eq_getElem?, hlen, ← List.getD_eq_getElem?_getD,
    rollingMean_getD_of_defined values window h0 hn (values.length - 1)
      (by omega) (by omega)]
  rfl

/-- Witness for C1: the 200-period constant series passes the gate; its
evaluation satisfies the qualifies-iff-no-reasons equivalence, the
zero-score-on-disqualification equation, and the entry/stop-price
equations with the concrete latest ATR value. -/
theorem c1_evaluate_post_gate_witness :
    evaluate {} wPrice 80 40 = .ok (evaluateInd {}
      (buildIndicators wPrice
        (rollingMean (trueRange wPrice.high wPrice.low wPrice.close) 14)) 80 40)
    ∧ ((evaluateInd {} (buildIndicators wPrice
        (rollingMean (trueRange wPrice.high wPrice.low wPrice.close) 14)) 80 40).qualifies = true
        ↔ (evaluateInd {} (buildIndicators wPrice
        (rollingMean (trueRange wPrice.high wPrice.low wPrice.close) 14)) 80 40).reasons = [])
    ∧ (evaluateInd {} (buildIndicators wPrice
        (rollingMean (trueRange wPrice.high wPrice.low wPrice.close) 14)) 80 40).entry_price
          = lastD wPrice.close
    ∧ (∀ a, lastO (buildIndicators wPrice
        (rollingMean (trueRange wPrice.high wPrice.low wPrice.close) 14)).atr_14 = some a →
        (evaluateInd {} (buildIndicators wPrice
          (rollingMean (trueRange wPrice.high wPrice.low wPrice.close) 14)) 80 40).stop_price
            = some (lastD wPrice.close - 2 * a)) := by
  have hgate : ∀ window : ℤ, 0 < window → window ≤ 200 →
      (lastO (rollingMean wPrice.close window)).isSome = true := by
    intro window hw hn
    exact lastO_rollingMean_isSome (List.replicate 200 10) window hw
      (by rw [List.length_replicate]; omega)
  have h := c1_evaluate_post_gate {} wPrice 80 40
    (buildIndicators wPrice
      (rollingMean (trueRange wPrice.high wPrice.low wPrice.close) 14))
    wPrice_ok
    (by rw [buildIndicators_sma_50]; exact hgate 50 (by norm_num) (by norm_num))
    (by rw [buildIndicators_sma_150]; exact hgate 150 (by norm_num) (by norm_num))
    (by rw [buildIndicators_sma_200]; exact hgate 200 (by norm_num) (by norm_num))
  exact ⟨h.1, h.2.1, h.2.2.2.2.1, h.2.2.2.2.2⟩

/-!
## Relative-strength monotonicity (claim C9)
-/

theorem count_rs_in_reasonStack (m50 m150 m200 : ℚ) :
    (reasonStack m50 m150 m200).count "Relative strength is below threshold" = 0 := by
  rw [reasonStack]
  split <;> decide

theorem count_rs_in_reasonTrend (cfg : StrategyConfig) (sma200 : List (Option ℚ))
    (m200 : ℚ) :
    (reasonTrend cfg sma200 m200).count "Relative strength is below threshold" = 0 := by
  rw [reasonTrend]
  split
  · split
    · decide
    · split <;> decide
  · decide

theorem count_rs_in_reasonAboveMAs (c m50 m150 : ℚ) :
    (reasonAboveMAs c m50 m150).count "Relative strength is below threshold" = 0 := by
  rw [reasonAboveMAs]
  split <;> decide

theorem count_rs_in_reasonOffHigh (cfg : StrategyConfig) (v : Option ℚ) :
    (reasonOffHigh cfg v).count "Relative strength is below threshold" = 0 := by
  rw [reasonOffHigh.eq_def]
  split
  · decide
  · split <;> decide

theorem count_rs_in_reasonFromLow (cfg : StrategyConfig) (v : Option ℚ) :
    (reasonFromLow cfg v).count "Relative strength is below threshold" = 0 := by
  rw [reasonFromLow.eq_def]
  split
  · decide
  · split <;> decide

theorem count_rs_in_reasonVolume (cfg : StrategyConfig) (v : Option ℚ) :
    (reasonVolume cfg v).count "Relative strength is below threshold" = 0 := by
  rw [reasonVolume.eq_def]
  split
  · decide
  · split <;> decide

theorem count_rs_in_reasonBase (cfg : StrategyConfig) (bl : ℤ) :
    (reasonBase cfg bl).count "Relative strength is below threshold" = 0 := by
  rw [reasonBase]
  split <;> decide

theorem count_rs_in_reasonAtr (v : Option ℚ) :
    (reasonAtr v).count "Relative strength is below threshold" = 0 := by
  rw [reasonAtr.eq_def]
  split
  · decide
  · split <;> decide

theorem count_rs_in_reasonRs (cfg : StrategyConfig) (r : ℚ) :
    (reasonRs cfg r).count "Relative strength is below threshold" =
      if r < cfg.rs_threshold then 1 else 0 := by
  rw [reasonRs]
  split <;> decide

theorem count_rs_in_allReasons (cfg : StrategyConfig) (ind : IndicatorSet)
    (r : ℚ) (bl : ℤ) (m50 m150 m200 : ℚ) :
    (allReasons cfg ind r bl m50 m150 m200).count "Relative strength is below threshold"
      = if r < cfg.rs_threshold then 1 else 0 := by
  rw [allReasons]
  simp only [List.count_append]
  rw [count_rs_in_reasonStack, count_rs_in_reasonTrend, count_rs_in_reasonAboveMAs,
    count_rs_in_reasonOffHigh, count_rs_in_reasonFromLow, count_rs_in_reasonRs,
    count_rs_in_reasonVolume, count_rs_in_reasonBase, count_rs_in_reasonAtr]
  split <;> rfl

theorem reasonRs_eq_nil_of_le (cfg : StrategyConfig) (r : ℚ)
    (h : cfg.rs_threshold ≤ r) : reasonRs cfg r = [] := by
  rw [reasonRs, if_neg (by linarith)]

theorem reasonRs_threshold_of_eq_nil (cfg : StrategyConfig) (r : ℚ)
    (h : reasonRs cfg r = []) : cfg.rs_threshold ≤ r := by
  rw [reasonRs] at h
  by_contra hcon
  rw [if_pos (by linarith)] at h
  exact List.noConfusion h

theorem evaluateInd_qualifies_mono (cfg : StrategyConfig) (ind : IndicatorSet)
    (bl : ℤ) (r1 r2 : ℚ) (hr : r1 ≤ r2)
    (hq : (evaluateInd cfg ind r1 bl).qualifies = true) :
    (evaluateInd cfg ind r2 bl).qualifies = true := by
  rcases hm50 : lastO ind.sma_50 with _ | m50 <;>
    rcases hm150 : lastO ind.sma_150 with _ | m150 <;>
    rcases hm200 : lastO ind.sma_200 with _ | m200 <;>
    simp only [evaluateInd, hm50, hm150, hm200] at hq ⊢ <;>
    try exact absurd hq (by decide)
  rw [List.isEmpty_iff] at hq ⊢
  rw [allReasons] at hq
  simp only [List.append_eq_nil] at hq
  obtain ⟨⟨⟨⟨⟨⟨⟨⟨h2, h3⟩, h4⟩, h5⟩, h6⟩, h7⟩, h8⟩, h9⟩, h10⟩ := hq
  have hthr : cfg.rs_threshold ≤ r1 := reasonRs_threshold_of_eq_nil cfg r1 h7
  rw [allReasons]
  simp only [List.append_eq_nil]
  exact ⟨⟨⟨⟨⟨⟨⟨⟨h2, h3⟩, h4⟩, h5⟩, h6⟩,
    reasonRs_eq_nil_of_le cfg r2 (by linarith)⟩, h8⟩, h9⟩, h10⟩

/-- Counterexample to claim C9 as stated: on a one-period series the
early-exit path runs no relative-strength check, so with relative
strength 0 (strictly below the default threshold 70) the reasons list
does not contain the relative-strength failure reason at all, let alone
exactly once. -/
theorem c9_counterexample :
    (0 : ℚ) < ({} : StrategyConfig).rs_threshold
    ∧ evaluate {} { close := [5], high := [6], low := [4], volume := [7] } 0 40 = .ok
        { qualifies := false, score := 0,
          reasons := ["Not enough data to compute moving averages"],
          metrics_atr_14 := none, metrics_relative_strength := 0,
          entry_price := 5, stop_price := some 5 }
    ∧ (["Not enough data to compute moving averages"].count
        "Relative strength is below threshold" = 0) := by
  refine ⟨by norm_num [StrategyConfig.rs_threshold], ?_, by decide⟩
  rw [evaluate, calculateIndicators_ok
    { close := [5], high := [6], low := [4], volume := [7] } (by decide) (by decide)]
  rfl

/-- Amended claim C9: for every fixed price series whose indicators
compute, config, and base length, increasing the relative strength alone
never turns a qualifying evaluation into a disqualified one; and for
every evaluation that passes the moving-average-availability gate, the
reasons list contains the relative-strength failure reason exactly once
when the relative strength is strictly below `rs_threshold`, and zero
times otherwise. -/
theorem c9_amended_rs_monotonic (cfg : StrategyConfig) (p : PriceData)
    (bl : ℤ) (r1 r2 : ℚ) (ind : IndicatorSet)
    (hind : calculateIndicators p = .ok ind) (hr : r1 ≤ r2) :
    evaluate cfg p r1 bl = .ok (evaluateInd cfg ind r1 bl)
    ∧ ((evaluateInd cfg ind r1 bl).qualifies = true →
        (evaluateInd cfg ind r2 bl).qualifies = true)
    ∧ ((lastO ind.sma_50).isSome = true → (lastO ind.sma_150).isSome = true →
        (lastO ind.sma_200).isSome = true →
        (evaluateInd cfg ind r1 bl).reasons.count "Relative strength is below threshold"
          = if r1 < cfg.rs_threshold then 1 else 0) := by
  refine ⟨by rw [evaluate, hind]; rfl,
    evaluateInd_qualifies_mono cfg ind bl r1 r2 hr, fun h50 h150 h200 => ?_⟩
  obtain ⟨m50, hm50⟩ := Option.isSome_iff_exists.mp h50
  obtain ⟨m150, hm150⟩ := Option.isSome_iff_exists.mp h150
  obtain ⟨m200, hm200⟩ := Option.isSome_iff_exists.mp h200
  simp only [evaluateInd, hm50, hm150, hm200]
  exact count_rs_in_allReasons cfg ind r1 bl m50 m150 m200

/-- Witness for the amended C9 at the 200-period constant series: with
relative strength 0 the reason appears exactly once, and the count
equation also applies with relative strength 80 (where it gives zero). -/
theorem c9_amended_rs_monotonic_witness :
    (evaluateInd {} (buildIndicators wPrice
      (rollingMean (trueRange wPrice.high wPrice.low wPrice.close) 14)) 0 40).reasons.count
        "Relative strength is below threshold" = 1
    ∧ (evaluateInd {} (buildIndicators wPrice
      (rollingMean (trueRange wPrice.high wPrice.low wPrice.close) 14)) 80 40).reasons.count
        "Relative strength is below threshold" = 0 := by
  have hgate : ∀ window : ℤ, 0 < window → window ≤ 200 →
      (lastO (rollingMean wPrice.close window)).isSome = true := by
    intro window hw hn
    exact lastO_rollingMean_isSome (List.replicate 200 10) window hw
      (by rw [List.length_replicate]; omega)
  have h0 := (c9_amended_rs_monotonic {} wPrice 40 0 0
    (buildIndicators wPrice
      (rollingMean (trueRange wPrice.high wPrice.low wPrice.close) 14))
    wPrice_ok le_rfl).2.2
    (by rw [buildIndicators_sma_50]; exact hgate 50 (by norm_num) (by norm_num))
    (by rw [buildIndicators_sma_150]; exact hgate 150 (by norm_num) (by norm_num))
    (by rw [buildIndicators_sma_200]; exact hgate 200 (by norm_num) (by norm_num))
  have h80 := (c9_amended_rs_monotonic {} wPrice 40 80 80
    (buildIndicators wPrice
      (rollingMean (trueRange wPrice.high wPrice.low wPrice.close) 14))
    wPrice_ok le_rfl).2.2
    (by rw [buildIndicators_sma_50]; exact hgate 50 (by norm_num) (by norm_num))
    (by rw [buildIndicators_sma_150]; exact hgate 150 (by norm_num) (by norm_num))
    (by rw [buildIndicators_sma_200]; exact hgate 200 (by norm_num) (by norm_num))
  constructor
  · rw [h0, if_pos (by norm_num [StrategyConfig.rs_threshold])]
  · rw [h80, if_neg (by norm_num [StrategyConfig.rs_threshold])]

/-!
## The orchestrator (claim C8)
-/

/-- The per-symbol results the specification describes for
`rank_candidates` before sorting: one `CandidateResult` per qualifying
symbol in encounter order, non-qualifying symbols silently dropped. -/
def qualifyingResults (cfg : StrategyConfig) (pcfg : PositionSizerConfig)
    (symbols : List (String × PriceData)) (rs : String → ℚ) (bl : String → ℤ) :
    List CandidateResult :=
  symbols.filterMap (fun sp =>
    match evaluate cfg sp.2 (rs sp.1) (bl sp.1) with
    | .ok ev =>
      if ev.qualifies then
        match ev.metrics_atr_14 with
        | some a =>
          match size_position pcfg ev.entry_price a with
          | .ok plan => some ⟨sp.1, ev, plan⟩
          | .error _ => none
        | none => none
      else none
    | .error _ => none)

theorem evaluate_ok_inv (cfg : StrategyConfig) (p : PriceData) (r : ℚ) (b : ℤ)
    (ev : StrategyEvaluation) (h : evaluate cfg p r b = .ok ev) :
    ∃ ind, calculateIndicators p = .ok ind ∧ ev = evaluateInd cfg ind r b := by
  rw [evaluate] at h
  cases hci : calculateIndicators p with
  | error e => rw [hci] at h; exact Except.noConfusion h
  | ok ind =>
    rw [hci] at h
    exact ⟨ind, rfl, (Except.ok.inj h).symm⟩

theorem reasonAtr_eq_nil_inv (v : Option ℚ) (h : reasonAtr v = []) :
    ∃ a, v = some a ∧ 0 < a := by
  match v with
  | none => exact absurd h (by decide)
  | some a =>
    refine ⟨a, rfl, ?_⟩
    by_contra hcon
    have h2 : (if a ≤ 0 then ["ATR is not available"] else []) = [] := h
    rw [if_pos (by linarith)] at h2
    exact List.noConfusion h2

theorem evaluateInd_qualifies_atr (cfg : StrategyConfig) (ind : IndicatorSet)
    (r : ℚ) (bl : ℤ) (hq : (evaluateInd cfg ind r bl).qualifies = true) :
    ∃ a, (evaluateInd cfg ind r bl).metrics_atr_14 = some a ∧ 0 < a := by
  rcases hm50 : lastO ind.sma_50 with _ | m50 <;>
    rcases hm150 : lastO ind.sma_150 with _ | m150 <;>
    rcases hm200 : lastO ind.sma_200 with _ | m200 <;>
    simp only [evaluateInd, hm50, hm150, hm200] at hq ⊢ <;>
    try exact absurd hq (by decide)
  rw [List.isEmpty_iff, allReasons] at hq
  simp only [List.append_eq_nil] at hq
  exact reasonAtr_eq_nil_inv (lastO ind.atr_14) hq.2

theorem size_position_isOk (cfg : PositionSizerConfig) (e a : ℚ)
    (he : 0 < e) (ha : 0 < a) : ∃ plan, size_position cfg e a = .ok plan := by
  rw [size_position, if_neg (by linarith), if_neg (by linarith)]
  by_cases hp : e - (e - cfg.atr_multiplier * a) ≤ 0
  · exact ⟨_, by rw [if_pos hp]⟩
  · exact ⟨_, by rw [if_neg hp]⟩

theorem rankLoop_ok (cfg : StrategyConfig) (pcfg : PositionSizerConfig)
    (rs : String → ℚ) (bl : String → ℤ) :
    ∀ symbols : List (String × PriceData),
      (∀ sp ∈ symbols, ∃ ev, evaluate cfg sp.2 (rs sp.1) (bl sp.1) = .ok ev
        ∧ (ev.qualifies = true → 0 < ev.entry_price)) →
      rankLoop cfg pcfg rs bl symbols =
        .ok (qualifyingResults cfg pcfg symbols rs bl) := by
  intro symbols
  induction symbols with
  | nil => intro _; rfl
  | cons sp rest ih =>
    intro h
    obtain ⟨ev, hev, hpos⟩ := h sp (List.mem_cons_self sp rest)
    have hrest := ih (fun q hq => h q (List.mem_cons.mpr (Or.inr hq)))
    obtain ⟨s, p⟩ := sp
    rw [qualifyingResults, List.filterMap_cons]
    simp only [rankLoop, hev]
    by_cases hq : ev.qualifies = true
    · obtain ⟨ind, hind, hevInd⟩ := evaluate_ok_inv cfg p (rs s) (bl s) ev hev
      have hqI : (evaluateInd cfg ind (rs s) (bl s)).qualifies = true := by
        rw [← hevInd]; exact hq
      obtain ⟨a, hatr, hapos⟩ := evaluateInd_qualifies_atr cfg ind (rs s) (bl s) hqI
      have hatr2 : ev.metrics_atr_14 = some a := by rw [hevInd]; exact hatr
      obtain ⟨plan, hplan⟩ := size_position_isOk pcfg ev.entry_price a (hpos hq) hapos
      simp only [hq, hatr2, hplan, hrest, eq_self_iff_true, if_true]
      rfl
    · rw [if_neg hq, hrest]
      have hqf : ev.qualifies = false := by
        cases hqv : ev.qualifies
        · rfl
        · exact absurd hqv hq
      simp only [hqf]
      rfl

theorem rankLe_trans (a b c : CandidateResult)
    (hab : decide (b.evaluation.score ≤ a.evaluation.score) = true)
    (hbc : decide (c.evaluation.score ≤ b.evaluation.score) = true) :
    decide (c.evaluation.score ≤ a.evaluation.score) = true := by
  rw [decide_eq_true_eq] at *
  linarith

theorem rankLe_total (a b : CandidateResult) :
    (decide (b.evaluation.score ≤ a.evaluation.score)
      || decide (a.evaluation.score ≤ b.evaluation.score)) = true := by
  rcases le_total b.evaluation.score a.evaluation.score with h | h <;>
    simp [h]

/-- Amended claim C8: for every price-series mapping in which every
symbol has a relative-strength and a base-length entry, **whose
evaluations all succeed, and in which every qualifying symbol has a
positive latest close**, `rank_candidates` returns exactly one
`CandidateResult` per qualifying symbol (non-qualifying symbols are
omitted without error), ordered by descending evaluation score, with
equal-score symbols retaining their encounter order from the input
mapping's iteration. -/
theorem c8_amended_rank_candidates (cfg : StrategyConfig)
    (pcfg : PositionSizerConfig) (symbols : List (String × PriceData))
    (rs : String → ℚ) (bl : String → ℤ)
    (h : ∀ sp ∈ symbols, ∃ ev, evaluate cfg sp.2 (rs sp.1) (bl sp.1) = .ok ev
      ∧ (ev.qualifies = true → 0 < ev.entry_price)) :
    rank_candidates cfg pcfg symbols rs bl =
      .ok ((qualifyingResults cfg pcfg symbols rs bl).mergeSort
        (fun a b => decide (b.evaluation.score ≤ a.evaluation.score)))
    ∧ ((qualifyingResults cfg pcfg symbols rs bl).mergeSort
        (fun a b => decide (b.evaluation.score ≤ a.evaluation.score))).Perm
          (qualifyingResults cfg pcfg symbols rs bl)
    ∧ ((qualifyingResults cfg pcfg symbols rs bl).mergeSort
        (fun a b => decide (b.evaluation.score ≤ a.evaluation.score))).Pairwise
          (fun a b => b.evaluation.score ≤ a.evaluation.score)
    ∧ ∀ ra rb : CandidateResult,
        [ra, rb].Sublist (qualifyingResults cfg pcfg symbols rs bl) →
        rb.evaluation.score ≤ ra.evaluation.score →
        [ra, rb].Sublist ((qualifyingResults cfg pcfg symbols rs bl).mergeSort
          (fun a b => decide (b.evaluation.score ≤ a.evaluation.score))) := by
  refine ⟨?_, List.mergeSort_perm _ _, ?_, fun ra rb hsub hle => ?_⟩
  · rw [rank_candidates, rankLoop_ok cfg pcfg rs bl symbols h]
    rfl
  · exact List.Pairwise.imp (fun hab => of_decide_eq_true hab)
      (List.sorted_mergeSort rankLe_trans rankLe_total _)
  · exact List.pair_sublist_mergeSort rankLe_trans rankLe_total
      (decide_eq_true hle) hsub

/-- A one-period price series (used by the amended-C8 witness). -/
def onePeriod : PriceData :=
  { close := [5], high := [6], low := [4], volume := [7] }

/-- Witness for the amended C8: a single-symbol universe whose evaluation
succeeds and does not qualify produces the empty ranking. -/
theorem c8_amended_rank_candidates_witness :
    rank_candidates {} {} [("A", onePeriod)] (fun _ => 80) (fun _ => 40) = .ok [] := by
  have hhyp : ∀ sp ∈ [("A", onePeriod)],
      ∃ ev, evaluate {} sp.2 ((fun _ => (80 : ℚ)) sp.1) ((fun _ => (40 : ℤ)) sp.1) = .ok ev
        ∧ (ev.qualifies = true → 0 < ev.entry_price) := by
    intro sp hsp
    rw [List.mem_singleton] at hsp
    subst hsp
    refine ⟨_, by
      rw [evaluate, calculateIndicators_ok _ (by decide) (by decide)]
      rfl, fun hq => absurd hq (by decide)⟩
  have h := (c8_amended_rank_candidates {} {} [("A", onePeriod)]
    (fun _ => 80) (fun _ => 40) hhyp).1
  rw [h]
  have hq : qualifyingResults {} {} [("A", onePeriod)]
      (fun _ => 80) (fun _ => 40) = [] := by decide
  rw [hq, List.mergeSort_nil]

/-- The valid price series behind the counterexample to claim C8 as
stated: 252 periods of negative prices whose latest close qualifies the
symbol, so the position sizer rejects the negative entry price and
`rank_candidates` raises instead of returning a list. -/
def negPrice : PriceData :=
  { close := List.replicate 200 (-300) ++ List.replicate 51 (-54) ++ [-53],
    high := List.replicate 252 (-52),
    low := List.replicate 252 (-40),
    volume := List.replicate 252 100 }

theorem foldl_max_replicate (c : ℚ) : ∀ m, (List.replicate m c).foldl max c = c := by
  intro m
  induction m with
  | zero => rfl
  | succ k ih => rw [List.replicate_succ, List.foldl_cons, max_self]; exact ih

theorem listMax_replicate_succ (n : ℕ) (c : ℚ) :
    listMax (List.replicate (n + 1) c) = c := by
  rw [List.replicate_succ]
  show (List.replicate n c).foldl max c = c
  exact foldl_max_replicate c n

theorem foldl_min_replicate (c : ℚ) : ∀ m, (List.replicate m c).foldl min c = c := by
  intro m
  induction m with
  | zero => rfl
  | succ k ih => rw [List.replicate_succ, List.foldl_cons, min_self]; exact ih

theorem listMin_replicate_succ (n : ℕ) (c : ℚ) :
    listMin (List.replicate (n + 1) c) = c := by
  rw [List.replicate_succ]
  show (List.replicate n c).foldl min c = c
  exact foldl_min_replicate c n

theorem lastO_map_zip {α β : Type} (f : α × β → Option ℚ) (l1 : List α)
    (l2 : List β) (n : ℕ) (hn : 0 < n) (h1 : l1.length = n) (h2 : l2.length = n)
    (x : α) (y : β) (hx : l1[n - 1]? = some x) (hy : l2[n - 1]? = some y) :
    lastO ((l1.zip l2).map f) = f (x, y) := by
  have hb1 : n - 1 < l1.length := by omega
  have hb2 : n - 1 < l2.length := by omega
  have hx2 : l1[n - 1] = x := by
    rw [List.getElem?_eq_getElem hb1] at hx
    exact Option.some.inj hx
  have hy2 : l2[n - 1] = y := by
    rw [List.getElem?_eq_getElem hb2] at hy
    exact Option.some.inj hy
  rw [lastO_eq_getElem?, List.length_map, List.length_zip, h1, h2, Nat.min_self,
    List.getElem?_map, getElem?_zip_of_lt l1 l2 (n - 1) hb1 hb2]
  simp only [Option.map_some', Option.getD_some]
  rw [hx2, hy2]

set_option maxRecDepth 4000 in
theorem negPrice_close_length : negPrice.close.length = 252 := by
  show (List.replicate 200 (-300 : ℚ) ++ (List.replicate 51 (-54) ++ [-53])).length = 252
  simp [List.length_append, List.length_replicate]

set_option maxRecDepth 4000 in
theorem negPrice_valid : validateInputs negPrice = true := by
  rw [validateInputs, negPrice_close_length]
  show ((List.replicate 252 (-52 : ℚ)).length == 252
    && (List.replicate 252 (-40 : ℚ)).length == 252
    && (List.replicate 252 (100 : ℚ)).length == 252) = true
  simp [List.length_replicate]

theorem negPrice_close_ne_nil : negPrice.close ≠ [] := by
  intro h
  have := congrArg List.length h
  rw [negPrice_close_length] at this
  exact absurd this (by decide)

set_option maxRecDepth 4000 in
theorem negPrice_high_length : negPrice.high.length = 252 := by
  show (List.replicate 252 (-52 : ℚ)).length = 252
  simp [List.length_replicate]

set_option maxRecDepth 4000 in
theorem negPrice_low_length : negPrice.low.length = 252 := by
  show (List.replicate 252 (-40 : ℚ)).length = 252
  simp [List.length_replicate]

set_option maxRecDepth 4000 in
theorem negPrice_volume_length : negPrice.volume.length = 252 := by
  show (List.replicate 252 (100 : ℚ)).length = 252
  simp [List.length_replicate]

theorem lastO_eq_getD (l : List (Option ℚ)) (n : ℕ) (hl : l.length = n) :
    lastO l = l.getD (n - 1) none := by
  rw [lastO_eq_getElem?, hl, List.getD_eq_getElem?_getD]

theorem getElem?_of_getD_some (l : List (Option ℚ)) (i : ℕ) (v : ℚ)
    (h : l.getD i none = some v) : l[i]? = some (some v) := by
  rw [List.getD_eq_getElem?_getD] at h
  cases hx : l[i]? with
  | none => rw [hx] at h; exact Option.noConfusion h
  | some o => rw [hx, Option.getD_some] at h; rw [h]

theorem getD_rollingMean_eq (values : List ℚ) (window : ℤ) (n i : ℕ)
    (hlen : values.length = n) (h0 : 0 < window) (hn : window ≤ (n : ℤ))
    (hi1 : window.toNat ≤ i + 1) (hi2 : i < n) (v : ℚ)
    (hs : (trailingSlice values window.toNat i).sum = v) :
    (rollingMean values window).getD i none = some (v / (window : ℚ)) := by
  rw [rollingMean_getD_of_defined values window h0 (by rw [hlen]; exact hn) i hi1
    (by omega), hs]

theorem getD_rollingMax_eq (values : List ℚ) (window : ℤ) (n i : ℕ)
    (hlen : values.length = n) (h0 : 0 < window) (hn : window ≤ (n : ℤ))
    (hi1 : window.toNat ≤ i + 1) (hi2 : i < n) (m : ℚ)
    (hs : listMax (trailingSlice values window.toNat i) = m) :
    (rollingMax values window).getD i none = some m := by
  rw [rollingMax_getD_of_defined values window h0 (by rw [hlen]; exact hn) i hi1
    (by omega), hs]

theorem getD_rollingMin_eq (values : List ℚ) (window : ℤ) (n i : ℕ)
    (hlen : values.length = n) (h0 : 0 < window) (hn : window ≤ (n : ℤ))
    (hi1 : window.toNat ≤ i + 1) (hi2 : i < n) (m : ℚ)
    (hs : listMin (trailingSlice values window.toNat i) = m) :
    (rollingMin values window).getD i none = some m := by
  rw [rollingMin_getD_of_defined values window h0 (by rw [hlen]; exact hn) i hi1
    (by omega), hs]

set_option maxRecDepth 4000 in
theorem negPrice_m50 : (rollingMean negPrice.close 50).getD 251 none
    = some ((-2699 : ℚ) / 50) := by
  have h := getD_rollingMean_eq negPrice.close 50 252 251 negPrice_close_length
    (by norm_num) (by norm_num) (by norm_num) (by norm_num) (-2699)
    (by
      rw [(by decide : trailingSlice negPrice.close ((50 : ℤ)).toNat 251
        = List.replicate 49 (-54 : ℚ) ++ [-53])]
      norm_num [List.sum_append, List.sum_replicate, nsmul_eq_mul])
  rw [h]
  norm_num

set_option maxRecDepth 4000 in
theorem negPrice_m150 : (rollingMean negPrice.close 150).getD 251 none
    = some ((-32207 : ℚ) / 150) := by
  have h := getD_rollingMean_eq negPrice.close 150 252 251 negPrice_close_length
    (by norm_num) (by norm_num) (by norm_num) (by norm_num) (-32207)
    (by
      rw [(by decide : trailingSlice negPrice.close ((150 : ℤ)).toNat 251
        = List.replicate 98 (-300 : ℚ) ++ (List.replicate 51 (-54) ++ [-53]))]
      norm_num [List.sum_append, List.sum_replicate, nsmul_eq_mul])
  rw [h]
  norm_num

set_option maxRecDepth 4000 in
theorem negPrice_m200 : (rollingMean negPrice.close 200).getD 251 none
    = some ((-47207 : ℚ) / 200) := by
  have h := getD_rollingMean_eq negPrice.close 200 252 251 negPrice_close_length
    (by norm_num) (by norm_num) (by norm_num) (by norm_num) (-47207)
    (by
      rw [(by decide : trailingSlice negPrice.close ((200 : ℤ)).toNat 251
        = List.replicate 148 (-300 : ℚ) ++ (List.replicate 51 (-54) ++ [-53]))]
      norm_num [List.sum_append, List.sum_replicate, nsmul_eq_mul])
  rw [h]
  norm_num

set_option maxRecDepth 4000 in
theorem negPrice_m200_earlier : (rollingMean negPrice.close 200).getD 241 none
    = some ((-49668 : ℚ) / 200) := by
  have h := getD_rollingMean_eq negPrice.close 200 252 241 negPrice_close_length
    (by norm_num) (by norm_num) (by norm_num) (by norm_num) (-49668)
    (by
      rw [(by decide : trailingSlice negPrice.close ((200 : ℤ)).toNat 241
        = List.replicate 158 (-300 : ℚ) ++ List.replicate 42 (-54))]
      norm_num [List.sum_append, List.sum_replicate, nsmul_eq_mul])
  rw [h]
  norm_num

set_option maxRecDepth 4000 in
theorem negPrice_high52 : (rollingMax negPrice.high 252).getD 251 none
    = some (-52 : ℚ) :=
  getD_rollingMax_eq negPrice.high 252 252 251 negPrice_high_length
    (by norm_num) (by norm_num) (by norm_num) (by norm_num) (-52)
    (by
      rw [(by decide : trailingSlice negPrice.high ((252 : ℤ)).toNat 251
        = List.replicate 252 (-52 : ℚ))]
      exact listMax_replicate_succ 251 (-52))

set_option maxRecDepth 4000 in
theorem negPrice_low52 : (rollingMin negPrice.low 252).getD 251 none
    = some (-40 : ℚ) :=
  getD_rollingMin_eq negPrice.low 252 252 251 negPrice_low_length
    (by norm_num) (by norm_num) (by norm_num) (by norm_num) (-40)
    (by
      rw [(by decide : trailingSlice negPrice.low ((252 : ℤ)).toNat 251
        = List.replicate 252 (-40 : ℚ))]
      exact listMin_replicate_succ 251 (-40))

set_option maxRecDepth 4000 in
theorem negPrice_avg10 : (rollingMean negPrice.volume 10).getD 251 none
    = some (100 : ℚ) := by
  have h := getD_rollingMean_eq negPrice.volume 10 252 251 negPrice_volume_length
    (by norm_num) (by norm_num) (by norm_num) (by norm_num) 1000
    (by
      rw [(by decide : trailingSlice negPrice.volume ((10 : ℤ)).toNat 251
        = List.replicate 10 (100 : ℚ))]
      norm_num [List.sum_replicate, nsmul_eq_mul])
  rw [h]
  norm_num

set_option maxRecDepth 4000 in
theorem negPrice_avg50 : (rollingMean negPrice.volume 50).getD 251 none
    = some (100 : ℚ) := by
  have h := getD_rollingMean_eq negPrice.volume 50 252 251 negPrice_volume_length
    (by norm_num) (by norm_num) (by norm_num) (by norm_num) 5000
    (by
      rw [(by decide : trailingSlice negPrice.volume ((50 : ℤ)).toNat 251
        = List.replicate 50 (100 : ℚ))]
      norm_num [List.sum_replicate, nsmul_eq_mul])
  rw [h]
  norm_num

theorem negPrice_trueRange_length :
    (trueRange negPrice.high negPrice.low negPrice.close).length = 252 := by
  rw [length_trueRange negPrice.high negPrice.low negPrice.close
    (by rw [negPrice_high_length, negPrice_close_length])
    (by rw [negPrice_low_length, negPrice_close_length]) negPrice_close_ne_nil,
    negPrice_close_length]

set_option maxRecDepth 6000 in
unseal Rat.add Rat.sub Rat.mul Rat.inv in
theorem negPrice_atr : (rollingMean
    (trueRange negPrice.high negPrice.low negPrice.close) 14).getD 251 none
    = some (14 : ℚ) := by
  have h := getD_rollingMean_eq (trueRange negPrice.high negPrice.low negPrice.close)
    14 252 251 negPrice_trueRange_length
    (by norm_num) (by norm_num) (by norm_num) (by norm_num) 196
    (by
      rw [(by decide : trailingSlice
        (trueRange negPrice.high negPrice.low negPrice.close) ((14 : ℤ)).toNat 251
        = List.replicate 14 (14 : ℚ))]
      norm_num [List.sum_replicate, nsmul_eq_mul])
  rw [h]
  norm_num

/-- The indicator set computed for `negPrice`. -/
def negInd : IndicatorSet :=
  buildIndicators negPrice
    (rollingMean (trueRange negPrice.high negPrice.low negPrice.close) 14)

theorem negInd_sma50 : lastO negInd.sma_50 = some ((-2699 : ℚ) / 50) := by
  show lastO (buildIndicators _ _).sma_50 = _
  rw [buildIndicators_sma_50,
    lastO_eq_getD _ 252 (by rw [length_rollingMean, negPrice_close_length])]
  exact negPrice_m50

theorem negInd_sma150 : lastO negInd.sma_150 = some ((-32207 : ℚ) / 150) := by
  show lastO (buildIndicators _ _).sma_150 = _
  rw [buildIndicators_sma_150,
    lastO_eq_getD _ 252 (by rw [length_rollingMean, negPrice_close_length])]
  exact negPrice_m150

theorem negInd_sma200 : lastO negInd.sma_200 = some ((-47207 : ℚ) / 200) := by
  show lastO (buildIndicators _ _).sma_200 = _
  rw [buildIndicators_sma_200,
    lastO_eq_getD _ 252 (by rw [length_rollingMean, negPrice_close_length])]
  exact negPrice_m200

set_option maxRecDepth 4000 in
theorem negPrice_close_last : lastD negPrice.close = -53 := by decide

set_option maxRecDepth 4000 in
theorem negPrice_close_getElem : negPrice.close[251]? = some (-53 : ℚ) := by decide

theorem negInd_pct_off_high : lastO negInd.pct_off_high
    = some (((-52 : ℚ) - (-53)) / (-52)) := by
  show lastO (buildIndicators _ _).pct_off_high = _
  rw [buildIndicators_pct_off_high,
    lastO_map_zip _ negPrice.close (rollingMax negPrice.high 252) 252 (by norm_num)
      negPrice_close_length (by rw [length_rollingMax, negPrice_high_length])
      (-53) (some (-52)) negPrice_close_getElem
      (getElem?_of_getD_some _ 251 (-52) negPrice_high52)]
  show (if (-52 : ℚ) = 0 then none else some (((-52 : ℚ) - (-53)) / (-52)))
    = some (((-52 : ℚ) - (-53)) / (-52))
  rw [if_neg (by norm_num : ¬ (-52 : ℚ) = 0)]

theorem negInd_pct_from_low : lastO negInd.pct_from_low
    = some (((-53 : ℚ) - (-40)) / (-40)) := by
  show lastO (buildIndicators _ _).pct_from_low = _
  rw [buildIndicators_pct_from_low,
    lastO_map_zip _ negPrice.close (rollingMin negPrice.low 252) 252 (by norm_num)
      negPrice_close_length (by rw [length_rollingMin, negPrice_low_length])
      (-53) (some (-40)) negPrice_close_getElem
      (getElem?_of_getD_some _ 251 (-40) negPrice_low52)]
  show (if (-40 : ℚ) = 0 then none else some (((-53 : ℚ) - (-40)) / (-40)))
    = some (((-53 : ℚ) - (-40)) / (-40))
  rw [if_neg (by norm_num : ¬ (-40 : ℚ) = 0)]

theorem negInd_volume_dry_up : lastO negInd.volume_dry_up
    = some ((100 : ℚ) / 100) := by
  show lastO (buildIndicators _ _).volume_dry_up = _
  rw [buildIndicators_volume_dry_up,
    lastO_map_zip _ (rollingMean negPrice.volume 10) (rollingMean negPrice.volume 50)
      252 (by norm_num)
      (by rw [length_rollingMean, negPrice_volume_length])
      (by rw [length_rollingMean, negPrice_volume_length])
      (some 100) (some 100)
      (getElem?_of_getD_some _ 251 100 negPrice_avg10)
      (getElem?_of_getD_some _ 251 100 negPrice_avg50)]
  show (if (0 : ℚ) < 100 then some ((100 : ℚ) / 100) else none) = some ((100 : ℚ) / 100)
  rw [if_pos (by norm_num : (0 : ℚ) < 100)]

theorem negInd_atr14 : lastO negInd.atr_14 = some (14 : ℚ) := by
  show lastO (buildIndicators _ _).atr_14 = _
  rw [buildIndicators_atr_14,
    lastO_eq_getD _ 252 (by rw [length_rollingMean, negPrice_trueRange_length])]
  exact negPrice_atr

theorem negInd_reasons : allReasons {} negInd 80 40
    ((-2699 : ℚ) / 50) ((-32207 : ℚ) / 150) ((-47207 : ℚ) / 200) = [] := by
  have hstack : reasonStack ((-2699 : ℚ) / 50) ((-32207 : ℚ) / 150)
      ((-47207 : ℚ) / 200) = [] := by
    rw [reasonStack, if_neg (not_not_intro ⟨by norm_num, by norm_num⟩)]
  have hsma200len : negInd.sma_200.length = 252 := by
    show (buildIndicators _ _).sma_200.length = 252
    rw [buildIndicators_sma_200, length_rollingMean, negPrice_close_length]
  have h241 : negInd.sma_200.getD 241 none = some ((-49668 : ℚ) / 200) := by
    show (buildIndicators _ _).sma_200.getD 241 none = _
    rw [buildIndicators_sma_200]
    exact negPrice_m200_earlier
  have htrend : reasonTrend {} negInd.sma_200 ((-47207 : ℚ) / 200) = [] := by
    rw [reasonTrend, hsma200len,
      if_pos (by decide : 252 > ({} : StrategyConfig).trend_lookback),
      (by decide : 252 - 1 - ({} : StrategyConfig).trend_lookback = 241)]
    simp only [h241]
    rw [if_neg (by norm_num : ¬ ((-47207 : ℚ) / 200 ≤ (-49668 : ℚ) / 200))]
  have habove : reasonAboveMAs (lastD negInd.close) ((-2699 : ℚ) / 50)
      ((-32207 : ℚ) / 150) = [] := by
    have hc : lastD negInd.close = -53 := by
      show lastD (buildIndicators _ _).close = -53
      rw [buildIndicators_close]
      exact negPrice_close_last
    rw [reasonAboveMAs, hc, if_neg (by push_neg; constructor <;> norm_num)]
  have hoff : reasonOffHigh {} (lastO negInd.pct_off_high) = [] := by
    simp only [negInd_pct_off_high, reasonOffHigh]
    rw [if_neg (by norm_num)]
  have hfrom : reasonFromLow {} (lastO negInd.pct_from_low) = [] := by
    simp only [negInd_pct_from_low, reasonFromLow]
    rw [if_neg (by norm_num [StrategyConfig.min_pct_from_low])]
  have hrs : reasonRs {} 80 = [] := by
    rw [reasonRs, if_neg (by norm_num [StrategyConfig.rs_threshold])]
  have hvol : reasonVolume {} (lastO negInd.volume_dry_up) = [] := by
    simp only [negInd_volume_dry_up, reasonVolume]
    rw [if_neg (by norm_num [StrategyConfig.min_volume_dry_up_ratio])]
  have hbase : reasonBase {} 40 = [] := by
    rw [reasonBase, if_neg (by norm_num [StrategyConfig.min_base_length])]
  have hatrR : reasonAtr (lastO negInd.atr_14) = [] := by
    simp only [negInd_atr14, reasonAtr]
    rw [if_neg (by norm_num)]
  rw [allReasons, hstack, htrend, habove, hoff, hfrom, hrs, hvol, hbase, hatrR]
  rfl

set_option maxRecDepth 8000 in
theorem negPrice_eval_qualifies :
    evaluate {} negPrice 80 40 = .ok (evaluateInd {} negInd 80 40)
    ∧ (evaluateInd {} negInd 80 40).qualifies = true
    ∧ (evaluateInd {} negInd 80 40).metrics_atr_14 = some (14 : ℚ)
    ∧ (evaluateInd {} negInd 80 40).entry_price = -53 := by
  have hbranch : evaluateInd {} negInd 80 40 =
      { qualifies := (allReasons {} negInd 80 40
          ((-2699 : ℚ) / 50) ((-32207 : ℚ) / 150) ((-47207 : ℚ) / 200)).isEmpty
        score := if (allReasons {} negInd 80 40
            ((-2699 : ℚ) / 50) ((-32207 : ℚ) / 150) ((-47207 : ℚ) / 200)).isEmpty then
            scoreOf negInd 80 else 0
        reasons := allReasons {} negInd 80 40
          ((-2699 : ℚ) / 50) ((-32207 : ℚ) / 150) ((-47207 : ℚ) / 200)
        metrics_atr_14 := lastO negInd.atr_14
        metrics_relative_strength := 80
        entry_price := lastD negInd.close
        stop_price := (lastO negInd.atr_14).map
          (fun a => lastD negInd.close - 2 * a) } := by
    rw [evaluateInd, negInd_sma50, negInd_sma150, negInd_sma200]
  refine ⟨?_, ?_, ?_, ?_⟩
  · rw [evaluate, calculateIndicators_ok negPrice negPrice_valid negPrice_close_ne_nil]
    rfl
  · rw [hbranch]
    show (allReasons {} negInd 80 40 _ _ _).isEmpty = true
    rw [negInd_reasons]
    rfl
  · rw [hbranch]
    show lastO negInd.atr_14 = some (14 : ℚ)
    exact negInd_atr14
  · rw [hbranch]
    show lastD negInd.close = -53
    show lastD (buildIndicators _ _).close = -53
    rw [buildIndicators_close]
    exact negPrice_close_last

/-- Counterexample to claim C8 as stated: `negPrice` is a valid
price-series (four equal series of positive length 252), its symbol has
relative-strength and base-length entries, and it qualifies, yet
`rank_candidates` raises the sizer's validation error on the negative
entry price instead of returning a ranked list. -/
theorem c8_counterexample :
    validateInputs negPrice = true
    ∧ negPrice.close.length = 252
    ∧ rank_candidates {} {} [("NEG", negPrice)] (fun _ => 80) (fun _ => 40)
        = .error (.sizer "Entry price must be positive") := by
  refine ⟨negPrice_valid, negPrice_close_length, ?_⟩
  obtain ⟨hev, hq, hatr, hentry⟩ := negPrice_eval_qualifies
  have hsize : size_position {} (-53 : ℚ) 14 =
      Except.error "Entry price must be positive" := by
    rw [size_position, if_pos (by norm_num)]
  have hloop : rankLoop {} {} (fun _ => 80) (fun _ => 40) [("NEG", negPrice)]
      = .error (.sizer "Entry price must be positive") := by
    simp only [rankLoop, hev, hq, eq_self_iff_true, if_true, hatr, hentry, hsize]
  rw [rank_candidates, hloop]
  rfl

end Craig
